import Mathlib

/-!
Verification of the message transport and dispatch layer of the
mcp_test repository (src/mcp_server.py, src/mcp_client.py).

The embedding models:
  * Python/JSON values as the inductive type `Json` (strings are lists of
    Unicode code points; numbers are restricted to integers, the only kind
    of number the protocol schema and both programs produce);
  * byte streams as `List Nat` (one `Nat` per byte, values < 256);
  * `json.dumps(m, separators=(",", ":"))` as `serJson` (compact form,
    `ensure_ascii` escaping, including surrogate-pair escapes);
  * `json.loads` as `jsonLoads` (recursive-descent scanner with the same
    strictness: no control characters in strings, no leading zeros,
    surrogate-pair recombination; non-integer numbers are not modelled,
    the two programs never produce them);
  * the frame codec `write_message` / `read_message` of both files,
    the server's connection loop `handle_connection`, the method handlers,
    and the client's `MCPClient.call` correlation loop.

Exceptions are modelled with `Except PyExc`; a Python function that
catches everything and returns `None` is modelled as returning `none`.
Recursions that Python performs by unbounded looping are given an explicit
fuel argument; every theorem about them either holds for all fuel or names
the fuel bound it needs.
-/

set_option maxRecDepth 8192

/-- Code points of a Lean string literal, used to transcribe the string
constants appearing in the Python sources. -/
def sc (s : String) : List Nat := s.toList.map Char.toNat

/-- Decimal digit test on a code point (Python `str.isdigit` on ASCII / the
digit ranges of the `int` and JSON number grammars). -/
def isDigitC (c : Nat) : Bool := decide (48 ≤ c ∧ c ≤ 57)

/-- JSON whitespace, the class skipped by `json.loads` (space, tab, LF, CR). -/
def isJWs (c : Nat) : Bool := decide (c = 32 ∨ c = 9 ∨ c = 10 ∨ c = 13)

/-- Whitespace stripped by Python `str.strip()` with no argument
(ASCII range: space, TAB, LF, VT, FF, CR). -/
def isStrWs (c : Nat) : Bool :=
  decide (c = 32 ∨ c = 9 ∨ c = 10 ∨ c = 11 ∨ c = 12 ∨ c = 13)

/-- Decimal digits of `n`, most significant first, as code points; the fuel
argument makes the recursion structural (any fuel above `n` is enough). -/
def natDecFuel : Nat → Nat → List Nat
  | 0, _ => []
  | fuel + 1, n =>
    if n < 10 then [48 + n] else natDecFuel fuel (n / 10) ++ [48 + n % 10]

/-- Decimal digits of a natural number, as produced by Python `str`/`repr`. -/
def natDec (n : Nat) : List Nat := natDecFuel (n + 1) n

/-- Value of a list of decimal digit code points (the accumulation both
`int()` and the JSON number scanner perform). -/
def digitsVal (ds : List Nat) : Nat := ds.foldl (fun a d => a * 10 + (d - 48)) 0

/-- Python `repr` of an integer: optional minus sign, then decimal digits.
This is exactly what `json.dumps` emits for an `int`. -/
def serInt (i : Int) : List Nat :=
  if i < 0 then 45 :: natDec i.natAbs else natDec i.toNat

/-- A JSON / decoded-Python value as exchanged by the two programs.
`str` holds Unicode code points; `num` holds integers only (the schema's
`id` and `error.code` are integers, and neither program emits any other
number). `null` also stands for Python `None`. -/
inductive Json where
  | null
  | bool (b : Bool)
  | num (n : Int)
  | str (s : List Nat)
  | arr (xs : List Json)
  | obj (kvs : List (List Nat × Json))

/-- Lower-case hexadecimal digit for `v < 16`, as `"%04x" % n` uses. -/
def hexDig (v : Nat) : Nat := if v < 10 then 48 + v else 87 + v

/-- The four hex digits of `n < 0x10000`, the body of a `\uXXXX` escape. -/
def hex4enc (n : Nat) : List Nat :=
  [hexDig (n / 4096 % 16), hexDig (n / 256 % 16), hexDig (n / 16 % 16),
   hexDig (n % 16)]

/-- One character as escaped by `json.dumps` with `ensure_ascii` (the
default both programs use): `"` and backslash get two-character escapes,
printable ASCII passes through, the five short control escapes are used
where they exist, every other code point below 0x10000 becomes `\uXXXX`,
and astral code points become a surrogate pair of `\u` escapes. -/
def escapeChar (c : Nat) : List Nat :=
  if c = 34 then [92, 34]
  else if c = 92 then [92, 92]
  else if 32 ≤ c ∧ c ≤ 126 then [c]
  else if c = 8 then [92, 98]
  else if c = 9 then [92, 116]
  else if c = 10 then [92, 110]
  else if c = 12 then [92, 102]
  else if c = 13 then [92, 114]
  else if c < 65536 then 92 :: 117 :: hex4enc c
  else
    let o := c - 65536
    (92 :: 117 :: hex4enc (55296 + o / 1024 % 1024)) ++
      (92 :: 117 :: hex4enc (56320 + o % 1024))

/-- The escaped body of a JSON string (between the quotes). -/
def serStrBody : List Nat → List Nat
  | [] => []
  | c :: r => escapeChar c ++ serStrBody r

/-- A complete serialized JSON string, quotes included. -/
def serStr (s : List Nat) : List Nat := 34 :: serStrBody s ++ [34]

mutual

/-- Compact serialization of a value: `json.dumps(v, separators=(",", ":"))`. -/
def serJson : Json → List Nat
  | .null => sc "null"
  | .bool true => sc "true"
  | .bool false => sc "false"
  | .num n => serInt n
  | .str s => serStr s
  | .arr xs => 91 :: serArrBody xs ++ [93]
  | .obj kvs => 123 :: serObjBody kvs ++ [125]

/-- The element list of a serialized array (no brackets). -/
def serArrBody : List Json → List Nat
  | [] => []
  | x :: r => serJson x ++ serArrTail r

/-- Continuation of an array body: a comma before every further element. -/
def serArrTail : List Json → List Nat
  | [] => []
  | x :: r => 44 :: (serJson x ++ serArrTail r)

/-- The member list of a serialized object (no braces). -/
def serObjBody : List (List Nat × Json) → List Nat
  | [] => []
  | (k, v) :: r => serStr k ++ 58 :: (serJson v ++ serObjTail r)

/-- Continuation of an object body: a comma before every further member. -/
def serObjTail : List (List Nat × Json) → List Nat
  | [] => []
  | (k, v) :: r => 44 :: (serStr k ++ 58 :: (serJson v ++ serObjTail r))

end

/-- UTF-8 bytes of one code point (scalar values; the programs only ever
encode the ASCII output of `serJson` and ASCII header text). -/
def utf8EncChar (c : Nat) : List Nat :=
  if c < 128 then [c]
  else if c < 2048 then [192 + c / 64, 128 + c % 64]
  else if c < 65536 then [224 + c / 4096, 128 + c / 64 % 64, 128 + c % 64]
  else [240 + c / 262144, 128 + c / 4096 % 64, 128 + c / 64 % 64, 128 + c % 64]

/-- UTF-8 encoding of a code-point string (`str.encode("utf-8")`). -/
def utf8Encode : List Nat → List Nat
  | [] => []
  | c :: r => utf8EncChar c ++ utf8Encode r

/-- Is `b` a UTF-8 continuation byte? -/
def isCont (b : Nat) : Bool := decide (128 ≤ b ∧ b ≤ 191)

/-- One code point decoded from the front of a UTF-8 byte stream, with the
remaining bytes: ASCII, or a 2-, 3- or 4-byte sequence with the strict
continuation ranges CPython enforces (no overlong forms, no surrogates);
`none` is a `UnicodeDecodeError`. -/
def utf8Step (b : Nat) (r : List Nat) : Option (Nat × List Nat) :=
  if b < 128 then some (b, r)
  else if 194 ≤ b ∧ b ≤ 223 then
    match r with
    | b2 :: r2 =>
      if isCont b2 then some ((b - 192) * 64 + (b2 - 128), r2) else none
    | [] => none
  else if 224 ≤ b ∧ b ≤ 239 then
    match r with
    | b2 :: b3 :: r3 =>
      let okB2 : Bool :=
        if b = 224 then decide (160 ≤ b2 ∧ b2 ≤ 191)
        else if b = 237 then decide (128 ≤ b2 ∧ b2 ≤ 159)
        else isCont b2
      if okB2 ∧ isCont b3 then
        some ((b - 224) * 4096 + (b2 - 128) * 64 + (b3 - 128), r3)
      else none
    | _ => none
  else if 240 ≤ b ∧ b ≤ 244 then
    match r with
    | b2 :: b3 :: b4 :: r4 =>
      let okB2 : Bool :=
        if b = 240 then decide (144 ≤ b2 ∧ b2 ≤ 191)
        else if b = 244 then decide (128 ≤ b2 ∧ b2 ≤ 143)
        else isCont b2
      if okB2 ∧ isCont b3 ∧ isCont b4 then
        some ((b - 240) * 262144 + (b2 - 128) * 4096 + (b3 - 128) * 64 +
          (b4 - 128), r4)
      else none
    | _ => none
  else none

/-- Strict UTF-8 decoding of a whole byte string, one `utf8Step` at a
time; the fuel makes the recursion structural (a step consumes at least
one byte, so any fuel above the length is enough). -/
def utf8DecodeFuel : Nat → List Nat → Option (List Nat)
  | 0, _ => none
  | _ + 1, [] => some []
  | fuel + 1, b :: r =>
    match utf8Step b r with
    | none => none
    | some (c, r2) =>
      match utf8DecodeFuel fuel r2 with
      | some t => some (c :: t)
      | none => none

/-- Python `bytes.decode("utf-8")`: `none` models the `UnicodeDecodeError`
raise on malformed input. -/
def utf8Decode (s : List Nat) : Option (List Nat) :=
  utf8DecodeFuel (s.length + 1) s

/-- Whitespace skipping inside `json.loads` (the `_w` regex of the decoder). -/
def skipWs : List Nat → List Nat
  | c :: r => if isJWs c then skipWs r else c :: r
  | [] => []

/-- Value of one hexadecimal digit code point, as the `\uXXXX` decoder
accepts them (both cases). -/
def hexVal (c : Nat) : Option Nat :=
  if 48 ≤ c ∧ c ≤ 57 then some (c - 48)
  else if 97 ≤ c ∧ c ≤ 102 then some (c - 87)
  else if 65 ≤ c ∧ c ≤ 70 then some (c - 55)
  else none

/-- Four hex digits after a `\u`, and the remaining input
(`_decode_uXXXX` in json/decoder.py; failure models its error). -/
def hex4dec : List Nat → Option (Nat × List Nat)
  | a :: b :: c :: d :: r =>
    match hexVal a, hexVal b, hexVal c, hexVal d with
    | some va, some vb, some vc, some vd =>
      some (((va * 16 + vb) * 16 + vc) * 16 + vd, r)
    | _, _, _, _ => none
  | _ => none

/-- Prepend a decoded character to a string-parse continuation. -/
def consStr (c : Nat) : Option (List Nat × List Nat) →
    Option (List Nat × List Nat)
  | some (cs, rr) => some (c :: cs, rr)
  | none => none

/-- The decoded character of a short escape `\c` (the `BACKSLASH` table of
json/decoder.py), or `none` for an invalid escape. -/
def shortEscape (e : Nat) : Option Nat :=
  if e = 34 then some 34
  else if e = 92 then some 92
  else if e = 47 then some 47
  else if e = 98 then some 8
  else if e = 102 then some 12
  else if e = 110 then some 10
  else if e = 114 then some 13
  else if e = 116 then some 9
  else none

/-- Body of a JSON string after the opening quote (`py_scanstring`, strict
mode): raw control characters are rejected, the eight short escapes and
`\uXXXX` are decoded, and a high-surrogate escape immediately followed by a
low-surrogate escape recombines into one astral code point (a lone
surrogate escape is kept as such, as CPython does). Structured per input
character rather than per regex chunk; the result is the same string. -/
def parseStrBody : Nat → List Nat → Option (List Nat × List Nat)
  | 0, _ => none
  | fuel + 1, s =>
    match s with
    | [] => none
    | c :: r =>
      if c = 34 then some ([], r)
      else if c = 92 then
        match r with
        | [] => none
        | e :: r2 =>
          if e = 117 then
            match hex4dec r2 with
            | none => none
            | some (u, r3) =>
              if 55296 ≤ u ∧ u ≤ 56319 then
                match r3 with
                | 92 :: 117 :: r4 =>
                  match hex4dec r4 with
                  | none => none
                  | some (u2, r5) =>
                    if 56320 ≤ u2 ∧ u2 ≤ 57343 then
                      consStr (65536 + (u - 55296) * 1024 + (u2 - 56320))
                        (parseStrBody fuel r5)
                    else consStr u (parseStrBody fuel r3)
                | _ => consStr u (parseStrBody fuel r3)
              else consStr u (parseStrBody fuel r3)
          else
            match shortEscape e with
            | some d => consStr d (parseStrBody fuel r2)
            | none => none
      else if c < 32 then none
      else consStr c (parseStrBody fuel r)

/-- Longest digit run at the front of the input. -/
def takeDigits : List Nat → List Nat × List Nat
  | [] => ([], [])
  | c :: r =>
    if isDigitC c then
      let (ds, t) := takeDigits r
      (c :: ds, t)
    else ([], c :: r)

/-- An unsigned run of the JSON integer grammar `0|[1-9][0-9]*`:
a leading zero is never followed by more digits. -/
def parseNatTok (s : List Nat) : Option (Nat × List Nat) :=
  match s with
  | [] => none
  | c :: r =>
    if c = 48 then some (0, r)
    else if isDigitC c then
      let p := takeDigits r
      some (digitsVal (c :: p.1), p.2)
    else none

/-- The integer part of the JSON number regex `-?(0|[1-9][0-9]*)`. -/
def parseIntTok (s : List Nat) : Option (Int × List Nat) :=
  match s with
  | [] => none
  | c :: r =>
    if c = 45 then
      match parseNatTok r with
      | some (n, t) => some (-(n : Int), t)
      | none => none
    else
      match parseNatTok s with
      | some (n, t) => some ((n : Int), t)
      | none => none

/-- Would the remainder extend the number with a fractional part
(`(\.\d+)?` of the number regex)? -/
def fracExt : List Nat → Bool
  | c :: d :: _ => decide (c = 46) && isDigitC d
  | _ => false

/-- Would the remainder extend the number with an exponent
(`([eE][-+]?\d+)?` of the number regex)? -/
def expExt : List Nat → Bool
  | [] => false
  | c :: r =>
    decide (c = 101 ∨ c = 69) &&
      (match r with
       | [] => false
       | s1 :: r2 =>
         if s1 = 43 ∨ s1 = 45 then
           match r2 with
           | d :: _ => isDigitC d
           | [] => false
         else isDigitC s1)

/-- A JSON number at the front of the input. The embedding covers the
values the programs exchange: integers. A match whose fractional part or
exponent would make it a float is out of the model and yields `none`
(the serializer below never produces one). -/
def parseNum (s : List Nat) : Option (Json × List Nat) :=
  match parseIntTok s with
  | none => none
  | some (v, r) => if fracExt r || expExt r then none else some (.num v, r)

/-- Python `dict` insertion: an existing key keeps its position and gets
the new value, a new key is appended. -/
def dictInsert (kvs : List (List Nat × Json)) (k : List Nat) (v : Json) :
    List (List Nat × Json) :=
  match kvs with
  | [] => [(k, v)]
  | (k0, v0) :: r =>
    if k0 = k then (k0, v) :: r else (k0, v0) :: dictInsert r k v

/-- Python `dict(pairs)`, as the object decoder applies it to the parsed
member list. -/
def pyDictOfPairs (pairs : List (List Nat × Json)) : List (List Nat × Json) :=
  pairs.foldl (fun d kv => dictInsert d kv.1 kv.2) []

/-- Does the literal `p` begin the input (`s[idx:idx+len(p)] == p`)? -/
def litPref : List Nat → List Nat → Bool
  | [], _ => true
  | _ :: _, [] => false
  | p :: ps, c :: cs => decide (p = c) && litPref ps cs

mutual

/-- One JSON value at the front of the input (`_scan_once`): dispatch on
the first character, containers handled by the member parsers below. The
fuel only bounds recursion depth; any fuel above the input length is
enough. `NaN`/`Infinity` (floats) are outside the model and yield `none`. -/
def parseVal : Nat → List Nat → Option (Json × List Nat)
  | 0, _ => none
  | fuel + 1, s =>
    match s with
    | [] => none
    | c :: r =>
      if c = 34 then
        match parseStrBody (r.length + 1) r with
        | some (cs, r2) => some (.str cs, r2)
        | none => none
      else if c = 123 then
        match skipWs r with
        | [] => none
        | c2 :: r2 =>
          if c2 = 125 then some (.obj [], r2)
          else
            match parseObjMembers fuel (c2 :: r2) with
            | some (kvs, r3) => some (.obj (pyDictOfPairs kvs), r3)
            | none => none
      else if c = 91 then
        match skipWs r with
        | [] => none
        | c2 :: r2 =>
          if c2 = 93 then some (.arr [], r2)
          else
            match parseArrElems fuel (c2 :: r2) with
            | some (xs, r3) => some (.arr xs, r3)
            | none => none
      else if litPref (sc "null") (c :: r) then some (.null, r.drop 3)
      else if litPref (sc "true") (c :: r) then some (.bool true, r.drop 3)
      else if litPref (sc "false") (c :: r) then some (.bool false, r.drop 4)
      else parseNum (c :: r)

/-- One-or-more array elements, positioned at a value (whitespace already
skipped); mirrors `JSONArray`, the empty case being handled by `parseVal`. -/
def parseArrElems : Nat → List Nat → Option (List Json × List Nat)
  | 0, _ => none
  | fuel + 1, s =>
    match parseVal fuel s with
    | none => none
    | some (v, r) =>
      match skipWs r with
      | [] => none
      | c :: r2 =>
        if c = 93 then some ([v], r2)
        else if c = 44 then
          match parseArrElems fuel (skipWs r2) with
          | some (vs, r3) => some (v :: vs, r3)
          | none => none
        else none

/-- One-or-more object members, positioned at the opening quote of a key
(whitespace already skipped); mirrors `JSONObject`, the empty case being
handled by `parseVal`. -/
def parseObjMembers : Nat → List Nat →
    Option (List (List Nat × Json) × List Nat)
  | 0, _ => none
  | fuel + 1, s =>
    match s with
    | [] => none
    | c :: r =>
      if c = 34 then
        match parseStrBody (r.length + 1) r with
        | none => none
        | some (k, r1) =>
          match skipWs r1 with
          | [] => none
          | c2 :: r2 =>
            if c2 = 58 then
              match parseVal fuel (skipWs r2) with
              | none => none
              | some (v, r3) =>
                match skipWs r3 with
                | [] => none
                | c3 :: r4 =>
                  if c3 = 125 then some ([(k, v)], r4)
                  else if c3 = 44 then
                    match parseObjMembers fuel (skipWs r4) with
                    | some (kvs, r5) => some ((k, v) :: kvs, r5)
                    | none => none
                  else none
            else none
      else none

end

/-- Python `json.loads` on a decoded text: leading whitespace, one value,
trailing whitespace, and nothing else; `none` models the `JSONDecodeError`
raise (including the floats the model leaves out). -/
def jsonLoads (s : List Nat) : Option Json :=
  match parseVal (s.length + 1) (skipWs s) with
  | some (v, r) => if skipWs r = [] then some v else none
  | none => none

/-- Is `c` a Unicode scalar value (a code point that can appear in a
Python `str` arriving from or going to a JSON text: not a lone surrogate,
at most 0x10FFFF)? -/
def isScalar (c : Nat) : Bool :=
  decide (c < 55296 ∨ (57344 ≤ c ∧ c ≤ 1114111))

/-- Every code point of the string is a scalar value. -/
def scalarStr : List Nat → Bool
  | [] => true
  | c :: r => isScalar c && scalarStr r

/-- Key `k` does not occur in the association list. -/
def keyAbsent (k : List Nat) : List (List Nat × Json) → Bool
  | [] => true
  | (k0, _) :: r => if k0 = k then false else keyAbsent k r

mutual

/-- Well-formed value: it could have been produced by `json.loads`, i.e.
all strings are scalar and all objects are Python dicts (distinct keys).
This is the domain on which serialization round-trips. -/
def wfJson : Json → Bool
  | .null => true
  | .bool _ => true
  | .num _ => true
  | .str s => scalarStr s
  | .arr xs => wfArr xs
  | .obj kvs => wfObj kvs

/-- All elements well-formed. -/
def wfArr : List Json → Bool
  | [] => true
  | x :: r => wfJson x && wfArr r

/-- All keys scalar and distinct, all values well-formed. -/
def wfObj : List (List Nat × Json) → Bool
  | [] => true
  | (k, v) :: r => scalarStr k && keyAbsent k r && wfJson v && wfObj r

end

/-- A raised Python exception, carrying `str(e)`. The constructors cover
the classes the two programs can raise or catch distinctly. -/
inductive PyExc where
  | valueError (msg : List Nat)
  | typeError (msg : List Nat)
  | attributeError (msg : List Nat)
  | runtimeError (msg : List Nat)
  | unicodeError (msg : List Nat)
  | jsonError (msg : List Nat)
  | fileNotFound (msg : List Nat)
  | osError (msg : List Nat)

/-- The message text of an exception, `str(e)`. -/
def PyExc.text : PyExc → List Nat
  | .valueError m => m
  | .typeError m => m
  | .attributeError m => m
  | .runtimeError m => m
  | .unicodeError m => m
  | .jsonError m => m
  | .fileNotFound m => m
  | .osError m => m

/-- BufferedReader `readline()`: bytes up to and including the first LF,
or everything left when no LF remains (`[]` only at end of stream). -/
def readline : List Nat → List Nat × List Nat
  | [] => ([], [])
  | c :: r =>
    if c = 10 then ([c], r)
    else
      let (l, t) := readline r
      (c :: l, t)

/-- BufferedReader `read(n)`: up to `n` bytes, everything for negative `n`. -/
def streamRead (n : Int) (s : List Nat) : List Nat × List Nat :=
  if n < 0 then (s, []) else (s.take n.toNat, s.drop n.toNat)

/-- Python `s.rstrip("\r\n")`: remove every trailing CR or LF. -/
def rstripCRLF (s : List Nat) : List Nat :=
  (s.reverse.dropWhile (fun c => c = 13 || c = 10)).reverse

/-- Python `s.strip()` (both ends; the characters involved are ASCII). -/
def stripWS (s : List Nat) : List Nat :=
  ((s.dropWhile (fun c => isStrWs c)).reverse.dropWhile
    (fun c => isStrWs c)).reverse

/-- ASCII lower-casing, as `str.lower()` acts on the header keys involved
(all ASCII; full Unicode lowering agrees on them). -/
def lowerChar (c : Nat) : Nat := if 65 ≤ c ∧ c ≤ 90 then c + 32 else c

/-- Python `s.lower()` on a header key. -/
def lowerStr (s : List Nat) : List Nat := s.map lowerChar

/-- Python `s.split(":", 1)`: the part before the first colon and the part
after it (callers first check that a colon is present). -/
def splitFirstColon : List Nat → List Nat × List Nat
  | [] => ([], [])
  | c :: r =>
    if c = 58 then ([], r)
    else
      let (a, b) := splitFirstColon r
      (c :: a, b)

/-- One escaped byte of `repr(bytes)` with quote character `q`. -/
def bytesReprEsc (q : Nat) (b : Nat) : List Nat :=
  if b = 92 then [92, 92]
  else if b = q then [92, q]
  else if b = 9 then [92, 116]
  else if b = 10 then [92, 110]
  else if b = 13 then [92, 114]
  else if b < 32 ∨ 127 ≤ b then [92, 120, hexDig (b / 16), hexDig (b % 16)]
  else [b]

/-- Python `str(line)` on a `bytes` object (its `repr`): `b` plus a quoted,
escaped rendering; the server falls back to this when a header line is not
UTF-8. -/
def bytesRepr (bs : List Nat) : List Nat :=
  let q := if bs.contains 39 = true ∧ bs.contains 34 = false then 34 else 39
  98 :: q :: bs.foldr (fun b acc => bytesReprEsc q b ++ acc) [] ++ [q]

/-- Insertion into a Python string-keyed `dict` of strings (existing key
keeps its position, value replaced; new key appended). -/
def hdInsert (kvs : List (List Nat × List Nat)) (k v : List Nat) :
    List (List Nat × List Nat) :=
  match kvs with
  | [] => [(k, v)]
  | (k0, v0) :: r =>
    if k0 = k then (k0, v) :: r else (k0, v0) :: hdInsert r k v

/-- Lookup in a string-keyed `dict` of strings. -/
def hdLookup (kvs : List (List Nat × List Nat)) (k : List Nat) :
    Option (List Nat) :=
  match kvs with
  | [] => none
  | (k0, v0) :: r => if k0 = k then some v0 else hdLookup r k

/-- All code points are decimal digits. -/
def allDigits : List Nat → Bool
  | [] => true
  | c :: r => isDigitC c && allDigits r

/-- Python `int(s)` on a decoded string: optional surrounding whitespace,
an optional sign, then at least one digit; everything else raises
`ValueError` (`none`). Digit grouping with underscores is not modelled;
no header the programs emit contains one. -/
def pyInt (s : List Nat) : Option Int :=
  match stripWS s with
  | [] => none
  | c :: ds =>
    if c = 43 then
      if ds ≠ [] ∧ allDigits ds = true then some ((digitsVal ds : Nat) : Int)
      else none
    else if c = 45 then
      if ds ≠ [] ∧ allDigits ds = true then some (-((digitsVal ds : Nat) : Int))
      else none
    else if allDigits (c :: ds) = true then
      some ((digitsVal (c :: ds) : Nat) : Int)
    else none

/-- The lower-cased Content-Length key the parsers look up. -/
def clKey : List Nat := sc "content-length"

/-- The server's `_read_headers`: read lines until a blank one, collecting
`key: value` pairs (key lower-cased and stripped); `none` at end of
stream. A line that is not UTF-8 falls back to the `repr` of the bytes
(the `except` branch of the decode). Any fuel above the stream length is
enough; the wrappers below pass exactly that. -/
def readHeadersSrv : Nat → List (List Nat × List Nat) → List Nat →
    Option (List (List Nat × List Nat) × List Nat)
  | 0, _, _ => none
  | fuel + 1, acc, s =>
    match readline s with
    | (line, rest) =>
      if line = [] then none
      else
        let dec :=
          match utf8Decode line with
          | some cs => cs
          | none => bytesRepr line
        let t := rstripCRLF dec
        if t = [] then some (acc, rest)
        else if t.contains 58 then
          let kv := splitFirstColon t
          readHeadersSrv fuel (hdInsert acc (lowerStr (stripWS kv.1)) (stripWS kv.2)) rest
        else readHeadersSrv fuel acc rest

/-- The client's `_read_headers`: identical except that a non-UTF-8 line
raises (no `try` around the decode). -/
def readHeadersCli : Nat → List (List Nat × List Nat) → List Nat →
    Except PyExc (Option (List (List Nat × List Nat) × List Nat))
  | 0, _, _ => .ok none
  | fuel + 1, acc, s =>
    match readline s with
    | (line, rest) =>
      if line = [] then .ok none
      else
        match utf8Decode line with
        | none => .error (.unicodeError (sc "invalid start byte"))
        | some cs =>
          let t := rstripCRLF cs
          if t = [] then .ok (some (acc, rest))
          else if t.contains 58 then
            let kv := splitFirstColon t
            readHeadersCli fuel (hdInsert acc (lowerStr (stripWS kv.1)) (stripWS kv.2)) rest
          else readHeadersCli fuel acc rest

/-- The server's `read_message`: headers, Content-Length, body, JSON.
Every failure — end of stream, missing or non-numeric length header,
empty body, undecodable or unparsable body — yields `(none, _)`; the
function models the fact that the server side catches everything. The
second component is the unconsumed stream. -/
def serverReadMessage (s : List Nat) : Option Json × List Nat :=
  match readHeadersSrv (s.length + 1) [] s with
  | none => (none, [])
  | some (hd, r1) =>
    match hdLookup hd clKey with
    | none => (none, r1)
    | some v =>
      match pyInt v with
      | none => (none, r1)
      | some len =>
        let (payload, r2) := streamRead len r1
        if payload = [] then (none, r2)
        else
          match utf8Decode payload with
          | none => (none, r2)
          | some cs =>
            match jsonLoads cs with
            | none => (none, r2)
            | some v => (some v, r2)

/-- The client's `read_message`: same framing logic, but `int(...)`,
`decode` and `json.loads` are unguarded, so a non-numeric length header,
an undecodable body or a malformed body raises instead of returning
`none`. -/
def clientReadMessage (s : List Nat) :
    Except PyExc (Option Json × List Nat) :=
  match readHeadersCli (s.length + 1) [] s with
  | .error e => .error e
  | .ok none => .ok (none, [])
  | .ok (some (hd, r1)) =>
    match hdLookup hd clKey with
    | none => .ok (none, r1)
    | some v =>
      match pyInt v with
      | none => .error (.valueError (sc "invalid literal for int with base 10"))
      | some len =>
        let (payload, r2) := streamRead len r1
        if payload = [] then .ok (none, r2)
        else
          match utf8Decode payload with
          | none => .error (.unicodeError (sc "invalid start byte"))
          | some cs =>
            match jsonLoads cs with
            | none => .error (.jsonError (sc "Expecting value"))
            | some v => .ok (some v, r2)

/-- Both sides' `write_message`: the serialized body's byte length in a
`Content-Length` header, a blank line, then the body, all UTF-8. -/
def writeMessage (m : Json) : List Nat :=
  let data := utf8Encode (serJson m)
  utf8Encode (sc "Content-Length: " ++ natDec data.length ++ [13, 10, 13, 10])
    ++ data

/-- Lookup in a decoded JSON object (a Python `dict` keyed by strings). -/
def jLookup : List (List Nat × Json) → List Nat → Option Json
  | [], _ => none
  | (k0, v0) :: r, k => if k0 = k then some v0 else jLookup r k

/-- Python `m.get(k)` on a message already known to be a dict (the server's
loop checks `isinstance(msg, dict)` before any `get`); `Json.null` is
Python `None`, covering both an absent key and a stored null. -/
def jget (m : Json) (k : List Nat) : Json :=
  match m with
  | .obj kvs =>
    match jLookup kvs k with
    | some v => v
    | none => .null
  | _ => .null

/-- Python `v.get(k)` where `v` may not be a dict: `AttributeError` then
(the client's loop and `handle_tools_call` call `get` unguarded). -/
def pyGet (v : Json) (k : List Nat) : Except PyExc Json :=
  match v with
  | .obj kvs =>
    .ok (match jLookup kvs k with
         | some x => x
         | none => .null)
  | _ => .error (.attributeError (sc "object has no attribute get"))

/-- Python truthiness of a decoded value (`or` chains and `if` tests). -/
def jFalsy : Json → Bool
  | .null => true
  | .bool b => !b
  | .num n => decide (n = 0)
  | .str s => s.isEmpty
  | .arr xs => xs.isEmpty
  | .obj kvs => kvs.isEmpty

/-- Python `v is None`. -/
def isNone : Json → Bool
  | .null => true
  | _ => false

/-- Is the decoded value a dict (`isinstance(msg, dict)`)? -/
def isDict : Json → Bool
  | .obj _ => true
  | _ => false

/-- Python `v == s` for a string literal `s`: only equal strings compare
equal (every comparison the programs make against a string literal). -/
def pyEqStr (v : Json) (s : List Nat) : Bool :=
  match v with
  | .str t => t = s
  | _ => false

/-- Python `v == n` for an integer `n`: numbers by value, and a bool equals
its 0/1 value (`True == 1` holds in Python). This is the comparison the
client's correlation loop performs against its own integer request id. -/
def pyEqInt (v : Json) (n : Int) : Bool :=
  match v with
  | .num m => m = n
  | .bool b => (if b then (1 : Int) else 0) = n
  | _ => false

/-- One escaped character of a `str` repr with quote `q`. Non-ASCII code
points are treated as printable (Python escapes only non-printable ones;
the strings that reach a repr in this system are ASCII). -/
def strReprEsc (q c : Nat) : List Nat :=
  if c = 92 then [92, 92]
  else if c = q then [92, q]
  else if c = 9 then [92, 116]
  else if c = 10 then [92, 110]
  else if c = 13 then [92, 114]
  else if c < 32 ∨ c = 127 then [92, 120, hexDig (c / 16), hexDig (c % 16)]
  else [c]

/-- Python `repr` of a string: quoted (single quotes unless the string has
one and no double quote) with escapes. -/
def strRepr (s : List Nat) : List Nat :=
  let q := if s.contains 39 = true ∧ s.contains 34 = false then 34 else 39
  q :: s.foldr (fun c acc => strReprEsc q c ++ acc) [] ++ [q]

mutual

/-- Python `repr` of a decoded value (used by `str` on containers, which
only occurs inside constructed error message text). -/
def pyRepr : Json → List Nat
  | .null => sc "None"
  | .bool true => sc "True"
  | .bool false => sc "False"
  | .num n => serInt n
  | .str s => strRepr s
  | .arr xs => 91 :: pyReprArr xs ++ [93]
  | .obj kvs => 123 :: pyReprObj kvs ++ [125]

/-- Elements of a list repr, separated by comma-space. -/
def pyReprArr : List Json → List Nat
  | [] => []
  | [x] => pyRepr x
  | x :: y :: r => pyRepr x ++ 44 :: 32 :: pyReprArr (y :: r)

/-- Members of a dict repr, `key: value` separated by comma-space. -/
def pyReprObj : List (List Nat × Json) → List Nat
  | [] => []
  | [(k, v)] => strRepr k ++ 58 :: 32 :: pyRepr v
  | (k, v) :: m :: r => strRepr k ++ 58 :: 32 :: pyRepr v ++ 44 :: 32 :: pyReprObj (m :: r)

end

/-- Python `str(v)` on a decoded value, as f-string interpolation applies
it inside the constructed error messages. -/
def pyStr (v : Json) : List Nat :=
  match v with
  | .null => sc "None"
  | .bool true => sc "True"
  | .bool false => sc "False"
  | .num n => serInt n
  | .str s => s
  | .arr xs => pyRepr (.arr xs)
  | .obj kvs => pyRepr (.obj kvs)

/-- What the operating system holds at one path: readable text, or a raise
other than `FileNotFoundError` (e.g. a permission error). This is the
external-collaborator boundary of the spec (file reading itself is out of
the core). -/
inductive FileData where
  | text (content : List Nat)
  | failure (msg : List Nat)

/-- The file system as the tools see it: the configured `CONTEXT_FILE`
path (environment-dependent) and the readable paths. -/
structure FS where
  ctxFile : List Nat
  files : List (List Nat × FileData)

/-- Lookup of a path. -/
def fsLookup : List (List Nat × FileData) → List Nat → Option FileData
  | [], _ => none
  | (p0, d) :: r, p => if p0 = p then some d else fsLookup r p

/-- Model of `open(p, "r").read()`: content, `FileNotFoundError` for an
absent path (with the OS error text naming the path), or another OS raise. -/
def fsOpen (fs : FS) (p : List Nat) : Except PyExc (List Nat) :=
  match fsLookup fs.files p with
  | some (.text c) => .ok c
  | some (.failure m) => .error (.osError m)
  | none =>
    .error (.fileNotFound
      (sc "[Errno 2] No such file or directory: " ++ 39 :: p ++ [39]))

/-- The server's `read_context`: `p = path or CONTEXT_FILE`, then open and
read. A truthy non-string path makes `open` raise (modelled as a
`TypeError`; for the dispatcher every such raise is just a generic
failure). -/
def read_context (fs : FS) (pathArg : Json) : Except PyExc (List Nat) :=
  if jFalsy pathArg then fsOpen fs fs.ctxFile
  else
    match pathArg with
    | .str p => fsOpen fs p
    | _ => .error (.typeError (sc "expected str, bytes or os.PathLike object"))

/-- Python `str.splitlines` line-break characters. -/
def isLineBreak (c : Nat) : Bool :=
  decide (c = 10 ∨ c = 13 ∨ c = 11 ∨ c = 12 ∨ c = 28 ∨ c = 29 ∨ c = 30 ∨
    c = 133 ∨ c = 8232 ∨ c = 8233)

/-- First line of a text and the remainder after its terminator
(CRLF counts as one terminator). -/
def breakLine : List Nat → List Nat × List Nat
  | [] => ([], [])
  | 13 :: 10 :: r => ([], r)
  | c :: r =>
    if isLineBreak c then ([], r)
    else
      let (l, t) := breakLine r
      (c :: l, t)

/-- Python `str.splitlines()`; fuel above the text length is enough. -/
def splitlinesFuel : Nat → List Nat → List (List Nat)
  | 0, _ => []
  | fuel + 1, s =>
    if s = [] then []
    else
      let (l, t) := breakLine s
      l :: splitlinesFuel fuel t

/-- Python `q in s` on strings (substring containment). -/
def strHas : List Nat → List Nat → Bool
  | [], q => q.isEmpty
  | c :: r, q => q.isPrefixOf (c :: r) || strHas r q

/-- The matching `(index, line)` pairs, 1-based, in order. -/
def matchLines (q : List Nat) (idx : Nat) : List (List Nat) →
    List (Nat × List Nat)
  | [] => []
  | l :: r =>
    if strHas (lowerStr l) q then (idx, l) :: matchLines q (idx + 1) r
    else matchLines q (idx + 1) r

/-- Python `"\n".join(out)`. -/
def joinNL : List (List Nat) → List Nat
  | [] => []
  | [x] => x
  | x :: y :: r => x ++ 10 :: joinNL (y :: r)

/-- The server's `search_context`: strip the query (empty query returns the
empty string without touching the file), read the context, compare
lower-cased lines by substring, and render either the no-match text or the
match report. Case folding is modelled on ASCII (the tool layer is the
spec's external collaborator). -/
def search_context (fs : FS) (words : List Nat) (pathArg : Json) :
    Except PyExc (List Nat) :=
  let query := stripWS words
  if query = [] then .ok []
  else
    match read_context fs pathArg with
    | .error e => .error e
    | .ok text =>
      let q := lowerStr query
      let ms := matchLines q 1 (splitlinesFuel (text.length + 1) text)
      if ms = [] then .ok (sc "No matches for: " ++ query)
      else
        .ok (joinNL ((sc "Matches (" ++ natDec ms.length ++ sc ") for: " ++ query) ::
          ms.map (fun nl => natDec nl.1 ++ 58 :: 32 :: nl.2)))

/-- A success response carrying one text content part (`result.content`),
as both tool branches of `handle_tools_call` construct it. -/
def okContentResp (reqId : Json) (text : List Nat) : Json :=
  .obj [(sc "jsonrpc", .str (sc "2.0")), (sc "id", reqId),
        (sc "result", .obj [(sc "content",
          .arr [.obj [(sc "type", .str (sc "text")), (sc "text", .str text)]])])]

/-- An error response with a code and message. -/
def errResp (reqId : Json) (code : Int) (msg : List Nat) : Json :=
  .obj [(sc "jsonrpc", .str (sc "2.0")), (sc "id", reqId),
        (sc "error", .obj [(sc "code", .num code), (sc "message", .str msg)])]

/-- The server's `handle_initialize`: a fixed capability descriptor. -/
def handle_initialize (reqId : Json) : Json :=
  .obj [(sc "jsonrpc", .str (sc "2.0")), (sc "id", reqId),
        (sc "result", .obj [
          (sc "protocolVersion", .str (sc "2024-11-05")),
          (sc "serverInfo", .obj [
            (sc "name", .str (sc "SimpleMCP-Server")),
            (sc "version", .str (sc "0.1.0"))]),
          (sc "capabilities", .obj [(sc "tools", .obj [])])])]

/-- The registered tool descriptors, in registration order. -/
def toolsListVal : Json :=
  .arr [
    .obj [(sc "name", .str (sc "read_file")),
          (sc "description",
           .str (sc "Read the configured context file (or an optional path).")),
          (sc "input_schema", .obj [
            (sc "type", .str (sc "object")),
            (sc "properties", .obj [
              (sc "path", .obj [(sc "type", .str (sc "string"))])])])],
    .obj [(sc "name", .str (sc "search_file")),
          (sc "description",
           .str (sc "Search for words in the context file and return matching lines.")),
          (sc "input_schema", .obj [
            (sc "type", .str (sc "object")),
            (sc "properties", .obj [
              (sc "words", .obj [
                (sc "type", .str (sc "string")),
                (sc "description", .str (sc "Search string"))]),
              (sc "path", .obj [(sc "type", .str (sc "string"))])]),
            (sc "required", .arr [.str (sc "words")])])]]

/-- The server's `handle_tools_list`. -/
def handle_tools_list (reqId : Json) : Json :=
  .obj [(sc "jsonrpc", .str (sc "2.0")), (sc "id", reqId),
        (sc "result", .obj [(sc "tools", toolsListVal)])]

/-- The body of the `try` block of `handle_tools_call`: dispatch on the
tool name, run the tool, wrap its text as a content part; an unknown name
yields the method-not-found error response naming the tool. -/
def toolsCallBody (fs : FS) (reqId : Json) (name arguments : Json) :
    Except PyExc Json :=
  if pyEqStr name (sc "read_file") then
    match pyGet arguments (sc "path") with
    | .error e => .error e
    | .ok pathArg =>
      match read_context fs pathArg with
      | .error e => .error e
      | .ok content => .ok (okContentResp reqId content)
  else if pyEqStr name (sc "search_file") then
    match pyGet arguments (sc "words") with
    | .error e => .error e
    | .ok w0 =>
      match (if jFalsy w0 then pyGet arguments (sc "query") else .ok w0) with
      | .error e => .error e
      | .ok w1 =>
        let wordsVal := if jFalsy w0 = false then w0
          else if jFalsy w1 = false then w1 else .str []
        match pyGet arguments (sc "path") with
        | .error e => .error e
        | .ok pathArg =>
          match search_context fs (pyStr wordsVal) pathArg with
          | .error e => .error e
          | .ok found => .ok (okContentResp reqId found)
  else
    .ok (errResp reqId (-32601) (sc "Method not found: tool " ++ pyStr name))

/-- The server's `handle_tools_call`: read `name` and `arguments` from
`params` (unguarded — a non-dict `params` raises out of the handler),
run the tool body, and catch `FileNotFoundError` (code -32000) and then
any other exception (code -32001) into error responses. -/
def handle_tools_call (fs : FS) (reqId : Json) (params : Json) :
    Except PyExc Json :=
  match pyGet params (sc "name") with
  | .error e => .error e
  | .ok name =>
    match pyGet params (sc "arguments") with
    | .error e => .error e
    | .ok a0 =>
      let arguments := if jFalsy a0 then .obj [] else a0
      match toolsCallBody fs reqId name arguments with
      | .ok resp => .ok resp
      | .error (.fileNotFound m) =>
        .ok (errResp reqId (-32000) (sc "File not found: " ++ m))
      | .error e =>
        .ok (errResp reqId (-32001) (sc "Server error: " ++ PyExc.text e))

/-- How a connection session ends: the loop broke (stream end, parse
failure, or a termination method), or an uncaught exception escaped. -/
inductive SessEnd where
  | closed
  | crashed (e : PyExc)

/-- The dispatch step of `handle_connection` for one decoded dict message:
the reply to write (if any) and whether the loop breaks after it. Mirrors
the method chain of the source, including replying to `initialize`,
`tools/list` and `tools/call` even when `id` is absent, and the
`req_id is not None` guards on the shutdown/exit and unknown branches. -/
def routeMsg (fs : FS) (m : Json) : Except PyExc (Option Json × Bool) :=
  let method := jget m (sc "method")
  let reqId := jget m (sc "id")
  let p0 := jget m (sc "params")
  let params := if jFalsy p0 then Json.obj [] else p0
  if pyEqStr method (sc "initialize") then
    .ok (some ( handle_initialize reqId), false)
  else if pyEqStr method (sc "tools/list") then
    .ok (some (handle_tools_list reqId), false)
  else if pyEqStr method (sc "tools/call") then
    match handle_tools_call fs reqId params with
    | .ok r => .ok (some r, false)
    | .error e => .error e
  else if pyEqStr method (sc "shutdown") || pyEqStr method (sc "exit") then
    .ok ((if isNone reqId then none
          else some (.obj [(sc "jsonrpc", .str (sc "2.0")), (sc "id", reqId),
                           (sc "result", .obj [])])), true)
  else
    .ok ((if isNone reqId then none
          else some (errResp reqId (-32601)
            (sc "Method not found: " ++ pyStr method))), false)

/-- The server's `handle_connection` loop over an incoming byte stream:
decode a message (`none` breaks the loop), skip non-dict bodies, dispatch,
collect the replies written, recurse on the unconsumed stream. The fuel
only bounds the number of iterations; a successful decode always consumes
at least one byte, so any fuel above the stream length is enough (the
fuel-0 value is never reached then). -/
def handleConnectionFuel : Nat → FS → List Nat → List Json × SessEnd
  | 0, _, _ => ([], .closed)
  | fuel + 1, fs, s =>
    match serverReadMessage s with
    | (none, _) => ([], .closed)
    | (some m, rest) =>
      if isDict m then
        match routeMsg fs m with
        | .error e => ([], .crashed e)
        | .ok (reply, term) =>
          let out :=
            match reply with
            | some r => [r]
            | none => []
          if term then (out, .closed)
          else
            let (outs, e) := handleConnectionFuel fuel fs rest
            (out ++ outs, e)
      else handleConnectionFuel fuel fs rest

/-- One whole connection session on a finite stream. -/
def handleConnection (fs : FS) (s : List Nat) : List Json × SessEnd :=
  handleConnectionFuel (s.length + 1) fs s

/-- The read loop of `MCPClient.call`: decode messages until one whose
`id` equals the request id (returned), raising `RuntimeError` when the
decoder reports no message, and propagating decoder raises and the
`AttributeError` of `get` on a non-dict reply. `none` is fuel exhaustion;
any fuel above the stream length is enough. -/
def callLoop (reqId : Int) : Nat → List Nat → Option (Except PyExc Json)
  | 0, _ => none
  | fuel + 1, s =>
    match clientReadMessage s with
    | .error e => some (.error e)
    | .ok (none, _) =>
      some (.error (.runtimeError (sc "Server terminated or sent invalid message")))
    | .ok (some m, rest) =>
      match pyGet m (sc "id") with
      | .error e => some (.error e)
      | .ok v => if pyEqInt v reqId then some (.ok m) else callLoop reqId fuel rest

/-- Everything `MCPClient.call(method, params)` does, with the instance
state made explicit: the incremented id counter (`next_id`), the request
frame written to the transport, and the outcome of the correlation loop
over the incoming bytes. -/
structure CallResult where
  newId : Int
  sent : List Nat
  result : Option (Except PyExc Json)

/-- The client's `MCPClient.call`. -/
def clientCall (idCounter : Int) (method : List Nat) (params : Json)
    (incoming : List Nat) : CallResult :=
  let reqId := idCounter + 1
  let req : Json := .obj [(sc "jsonrpc", .str (sc "2.0")), (sc "id", .num reqId),
                          (sc "method", .str method), (sc "params", params)]
  { newId := reqId, sent := writeMessage req,
    result := callLoop reqId (incoming.length + 1) incoming }

/-- A remainder that cannot extend a digit run. -/
def numStop : List Nat → Bool
  | [] => true
  | c :: _ => !(isDigitC c)

/-- A remainder that cannot extend a serialized number in any way: no
digit, no fractional part, no exponent can follow from it. -/
def numBoundary : List Nat → Bool
  | [] => true
  | c :: _ => !(isDigitC c || decide (c = 46) || decide (c = 101) || decide (c = 69))

/-- Does the decoded mapping have this key (with any value, null included)?
Used to state that a response carries `result` or `error`. -/
def hasKeyB (m : Json) (k : List Nat) : Bool :=
  match m with
  | .obj kvs => (jLookup kvs k).isSome
  | _ => false

/-- The response invariant of the protocol: exactly one of the `result`
and `error` fields is present. -/
def exactlyOneB (m : Json) : Bool :=
  (hasKeyB m (sc "result") && !hasKeyB m (sc "error")) ||
    (!hasKeyB m (sc "result") && hasKeyB m (sc "error"))

/-- The `arguments` value `handle_tools_call` passes to the tool body:
`params.get("arguments") or {}`. -/
def argsOf (params : Json) : Json :=
  if jFalsy (jget params (sc "arguments")) then Json.obj [] else
    jget params (sc "arguments")

/-- A byte stream consisting of the frames of the given messages in
order, as a peer would produce it by repeated `write_message` calls. -/
def frames : List Json → List Nat
  | [] => []
  | m :: r => writeMessage m ++ frames r

/-! ### Decimal digits: `natDec` is inverted by the digit scanners -/

theorem natDecFuel_irrel (n : Nat) : ∀ f g, n < f → n < g →
    natDecFuel f n = natDecFuel g n := by
  induction n using Nat.strong_induction_on with
  | _ n ih =>
    intro f g hf hg
    match f, g, hf, hg with
    | f + 1, g + 1, _, _ =>
      simp only [natDecFuel]
      by_cases h : n < 10
      · simp [h]
      · simp only [if_neg h]
        rw [ih (n / 10) (by omega) f g (by omega) (by omega)]

theorem natDec_unfold (n : Nat) :
    natDec n = (if n < 10 then [] else natDec (n / 10)) ++ [48 + n % 10] := by
  show natDecFuel (n + 1) n = _
  rw [natDecFuel]
  by_cases h : n < 10
  · simp [h, Nat.mod_eq_of_lt h]
  · simp only [if_neg h]
    rw [natDecFuel_irrel (n / 10) n (n / 10 + 1) (by omega) (by omega)]
    rfl

theorem natDec_digits (n : Nat) : ∀ c ∈ natDec n, isDigitC c = true := by
  induction n using Nat.strong_induction_on with
  | _ n ih =>
    rw [natDec_unfold]
    intro c hc
    rw [List.mem_append] at hc
    rcases hc with hc | hc
    · by_cases h : n < 10
      · simp [h] at hc
      · exact ih (n / 10) (by omega) c (by simpa [h] using hc)
    · rw [List.mem_singleton] at hc
      subst hc
      have := Nat.mod_lt n (show 0 < 10 by omega)
      simp only [isDigitC, decide_eq_true_eq]
      omega

theorem natDec_ne_nil (n : Nat) : natDec n ≠ [] := by
  rw [natDec_unfold]; simp

theorem natDec_head (n : Nat) (h : 1 ≤ n) :
    ∃ c t, natDec n = c :: t ∧ 49 ≤ c ∧ c ≤ 57 := by
  induction n using Nat.strong_induction_on with
  | _ n ih =>
    rw [natDec_unfold]
    by_cases h10 : n < 10
    · exact ⟨48 + n % 10, [], by simp [h10], by omega, by
        have := Nat.mod_lt n (show 0 < 10 by omega); omega⟩
    · obtain ⟨c, t, hct, hc1, hc2⟩ := ih (n / 10) (by omega) (by omega)
      exact ⟨c, t ++ [48 + n % 10], by simp [h10, hct], hc1, hc2⟩

theorem digitsVal_append_one (ds : List Nat) (d : Nat) :
    digitsVal (ds ++ [d]) = digitsVal ds * 10 + (d - 48) := by
  simp [digitsVal, List.foldl_append]

theorem digitsVal_natDec (n : Nat) : digitsVal (natDec n) = n := by
  induction n using Nat.strong_induction_on with
  | _ n ih =>
    rw [natDec_unfold]
    by_cases h : n < 10
    · rw [if_pos h]
      simp only [List.nil_append, digitsVal, List.foldl_cons, List.foldl_nil]
      omega
    · rw [if_neg h, digitsVal_append_one, ih (n / 10) (by omega)]
      omega

theorem numBoundary_stop {r : List Nat} (h : numBoundary r = true) :
    numStop r = true := by
  match r with
  | [] => rfl
  | c :: t => simp [numBoundary] at h; simp [numStop, h.1]

theorem numBoundary_frac {r : List Nat} (h : numBoundary r = true) :
    fracExt r = false := by
  match r with
  | [] => rfl
  | [c] => rfl
  | c :: d :: t => simp [numBoundary] at h; simp [fracExt]; omega

theorem numBoundary_exp {r : List Nat} (h : numBoundary r = true) :
    expExt r = false := by
  match r with
  | [] => rfl
  | c :: t => simp [numBoundary] at h; simp [expExt]; omega

theorem takeDigits_stop {r : List Nat} (h : numStop r = true) :
    takeDigits r = ([], r) := by
  match r with
  | [] => rfl
  | c :: t =>
    simp [numStop] at h
    simp [takeDigits, h]

theorem takeDigits_run (ds : List Nat) (hds : ∀ c ∈ ds, isDigitC c = true)
    (rest : List Nat) (hr : numStop rest = true) :
    takeDigits (ds ++ rest) = (ds, rest) := by
  induction ds with
  | nil => simpa using takeDigits_stop hr
  | cons c t ih =>
    have hc : isDigitC c = true := hds c (by simp)
    have ht := ih (fun x hx => hds x (by simp [hx]))
    simp [takeDigits, hc, ht]

theorem parseNatTok_natDec (n : Nat) (rest : List Nat)
    (hr : numStop rest = true) :
    parseNatTok (natDec n ++ rest) = some (n, rest) := by
  by_cases h0 : n = 0
  · subst h0
    simp [show natDec 0 = [48] from rfl, parseNatTok]
  · obtain ⟨c, t, hct, hc1, hc2⟩ := natDec_head n (by omega)
    have hdig : ∀ x ∈ t, isDigitC x = true := fun x hx =>
      natDec_digits n x (by rw [hct]; exact List.mem_cons_of_mem c hx)
    have hval : digitsVal (c :: t) = n := by rw [← hct, digitsVal_natDec]
    rw [hct]
    simp only [List.cons_append, parseNatTok]
    rw [if_neg (by omega), if_pos (by simp [isDigitC]; omega)]
    simp [takeDigits_run t hdig rest hr, hval]

theorem parseIntTok_serInt (i : Int) (rest : List Nat)
    (hr : numStop rest = true) :
    parseIntTok (serInt i ++ rest) = some (i, rest) := by
  by_cases hneg : i < 0
  · have : serInt i = 45 :: natDec i.natAbs := by simp [serInt, hneg]
    rw [this]
    simp only [List.cons_append, parseIntTok, if_pos rfl]
    rw [parseNatTok_natDec i.natAbs rest hr]
    show some (-((i.natAbs : Int)), rest) = some (i, rest)
    rw [show -((i.natAbs : Int)) = i by omega]
  · have hser : serInt i = natDec i.toNat := by simp [serInt, hneg]
    rw [hser]
    obtain ⟨c, t, hct⟩ : ∃ c t, natDec i.toNat = c :: t := by
      match h : natDec i.toNat with
      | [] => exact absurd h (natDec_ne_nil _)
      | c :: t => exact ⟨c, t, rfl⟩
    have hcd : isDigitC c = true :=
      natDec_digits i.toNat c (by rw [hct]; exact List.mem_cons_self c t)
    rw [hct]
    simp only [List.cons_append, parseIntTok]
    rw [if_neg (by simp [isDigitC] at hcd; omega)]
    rw [show (c :: (t ++ rest)) = natDec i.toNat ++ rest by rw [hct]; rfl]
    rw [parseNatTok_natDec i.toNat rest hr]
    show some (((i.toNat : Int)), rest) = some (i, rest)
    rw [show ((i.toNat : Int)) = i by omega]

theorem parseNum_serInt (i : Int) (rest : List Nat)
    (hb : numBoundary rest = true) :
    parseNum (serInt i ++ rest) = some (.num i, rest) := by
  simp [parseNum, parseIntTok_serInt i rest (numBoundary_stop hb),
    numBoundary_frac hb, numBoundary_exp hb]

/-! ### Strings: the scanner inverts the `ensure_ascii` escaping -/

theorem hexVal_hexDig : ∀ v, v < 16 → hexVal (hexDig v) = some v := by decide

theorem hexVal_hexDig_mod (x : Nat) : hexVal (hexDig (x % 16)) = some (x % 16) :=
  hexVal_hexDig _ (Nat.mod_lt _ (by omega))

theorem hex4dec_enc (n : Nat) (hn : n < 65536) (rest : List Nat) :
    hex4dec (hex4enc n ++ rest) = some (n, rest) := by
  simp only [hex4enc, List.cons_append, List.nil_append, hex4dec,
    hexVal_hexDig_mod, Option.some.injEq, Prod.mk.injEq, and_true]
  omega

theorem parseStrBody_plain (f c : Nat) (h34 : ¬ c = 34) (h92 : ¬ c = 92)
    (hge : ¬ c < 32) (r : List Nat) :
    parseStrBody (f + 1) (c :: r) = consStr c (parseStrBody f r) := by
  simp only [parseStrBody]
  rw [if_neg h34, if_neg h92, if_neg hge]

theorem parseStrBody_short (f e d : Nat) (he : shortEscape e = some d)
    (h117 : ¬ e = 117) (r : List Nat) :
    parseStrBody (f + 1) (92 :: e :: r) = consStr d (parseStrBody f r) := by
  simp only [parseStrBody, reduceIte]
  rw [if_neg h117, he]
  rw [if_neg (show ¬ (92 : Nat) = 34 by omega)]

theorem parseStrBody_uesc (f u : Nat) (hu : u < 65536)
    (hns : ¬(55296 ≤ u ∧ u ≤ 56319)) (tail : List Nat) :
    parseStrBody (f + 1) (92 :: 117 :: (hex4enc u ++ tail)) =
      consStr u (parseStrBody f tail) := by
  simp only [parseStrBody, reduceIte]
  rw [hex4dec_enc u hu tail]
  simp only [if_neg hns]
  rw [if_neg (show ¬ (92 : Nat) = 34 by omega)]

theorem parseStrBody_upair (f hi lo : Nat) (hhi1 : 55296 ≤ hi)
    (hhi2 : hi ≤ 56319) (hlo1 : 56320 ≤ lo) (hlo2 : lo ≤ 57343)
    (tail : List Nat) :
    parseStrBody (f + 1)
      (92 :: 117 :: (hex4enc hi ++ (92 :: 117 :: (hex4enc lo ++ tail)))) =
      consStr (65536 + (hi - 55296) * 1024 + (lo - 56320)) (parseStrBody f tail) := by
  simp only [parseStrBody, reduceIte]
  rw [hex4dec_enc hi (by omega) (92 :: 117 :: (hex4enc lo ++ tail))]
  simp only [if_pos (show 55296 ≤ hi ∧ hi ≤ 56319 from ⟨hhi1, hhi2⟩)]
  rw [hex4dec_enc lo (by omega) tail]
  simp only [if_pos (show 56320 ≤ lo ∧ lo ≤ 57343 from ⟨hlo1, hlo2⟩)]
  rw [if_neg (show ¬ (92 : Nat) = 34 by omega)]

theorem parseStrBody_escape (c : Nat) (hc : isScalar c = true) (f : Nat)
    (tail : List Nat) :
    parseStrBody (f + 1) (escapeChar c ++ tail) = consStr c (parseStrBody f tail) := by
  have hsc : c < 55296 ∨ (57344 ≤ c ∧ c ≤ 1114111) := by
    simpa [isScalar] using hc
  by_cases h34 : c = 34
  · subst h34
    exact parseStrBody_short f 34 34 rfl (by omega) tail
  by_cases h92 : c = 92
  · subst h92
    exact parseStrBody_short f 92 92 rfl (by omega) tail
  by_cases hpr : 32 ≤ c ∧ c ≤ 126
  · rw [escapeChar, if_neg h34, if_neg h92, if_pos hpr, List.singleton_append]
    exact parseStrBody_plain f c h34 h92 (by omega) tail
  by_cases h8 : c = 8
  · subst h8
    exact parseStrBody_short f 98 8 rfl (by omega) tail
  by_cases h9 : c = 9
  · subst h9
    exact parseStrBody_short f 116 9 rfl (by omega) tail
  by_cases h10 : c = 10
  · subst h10
    exact parseStrBody_short f 110 10 rfl (by omega) tail
  by_cases h12 : c = 12
  · subst h12
    exact parseStrBody_short f 102 12 rfl (by omega) tail
  by_cases h13 : c = 13
  · subst h13
    exact parseStrBody_short f 114 13 rfl (by omega) tail
  by_cases hlt : c < 65536
  · have hesc : escapeChar c = 92 :: 117 :: hex4enc c := by
      rw [escapeChar, if_neg h34, if_neg h92, if_neg hpr, if_neg h8, if_neg h9,
        if_neg h10, if_neg h12, if_neg h13, if_pos hlt]
    rw [hesc, List.cons_append, List.cons_append]
    exact parseStrBody_uesc f c hlt (by omega) tail
  · have hub : c ≤ 1114111 := by omega
    have hesc : escapeChar c =
        92 :: 117 :: hex4enc (55296 + (c - 65536) / 1024 % 1024) ++
          (92 :: 117 :: hex4enc (56320 + (c - 65536) % 1024)) := by
      rw [escapeChar, if_neg h34, if_neg h92, if_neg hpr, if_neg h8, if_neg h9,
        if_neg h10, if_neg h12, if_neg h13, if_neg hlt]
    rw [hesc]
    simp only [List.cons_append, List.append_assoc]
    rw [parseStrBody_upair f (55296 + (c - 65536) / 1024 % 1024)
      (56320 + (c - 65536) % 1024) (by omega) (by omega) (by omega) (by omega) tail]
    rw [show 65536 + (55296 + (c - 65536) / 1024 % 1024 - 55296) * 1024 +
      (56320 + (c - 65536) % 1024 - 56320) = c by omega]

theorem parseStrBody_ser (s : List Nat) : scalarStr s = true →
    ∀ (f : Nat) (rest : List Nat), s.length < f →
    parseStrBody f (serStrBody s ++ 34 :: rest) = some (s, rest) := by
  induction s with
  | nil =>
    intro _ f rest hf
    match f, hf with
    | f + 1, _ => simp [serStrBody, parseStrBody]
  | cons c cs ih =>
    intro h f rest hf
    obtain ⟨hc1, hc2⟩ : isScalar c = true ∧ scalarStr cs = true := by
      simpa [scalarStr] using h
    match f, hf with
    | f + 1, hf =>
      rw [serStrBody, List.append_assoc, parseStrBody_escape c hc1 f _,
        ih hc2 f rest (by simp only [List.length_cons] at hf; omega)]
      rfl

theorem escapeChar_ne_nil (c : Nat) : escapeChar c ≠ [] := by
  rw [escapeChar]
  repeat' split
  all_goals simp

theorem serStrBody_len (s : List Nat) : s.length ≤ (serStrBody s).length := by
  induction s with
  | nil => simp [serStrBody]
  | cons c cs ih =>
    rw [serStrBody, List.length_append]
    have : 1 ≤ (escapeChar c).length := by
      match h : escapeChar c with
      | [] => exact absurd h (escapeChar_ne_nil c)
      | x :: t => simp
    simp only [List.length_cons]
    omega

/-! ### Serialized values: head shape, whitespace, dict rebuilding -/

theorem skipWs_cons (c : Nat) (h : isJWs c = false) (t : List Nat) :
    skipWs (c :: t) = c :: t := by
  simp [skipWs, h]

theorem serJson_head (j : Json) :
    ∃ c t, serJson j = c :: t ∧ isJWs c = false ∧ ¬ c = 93 ∧ ¬ c = 125 ∧
      ¬ c = 44 := by
  cases j with
  | null => exact ⟨110, _, rfl, by decide, by decide, by decide, by decide⟩
  | bool b =>
    cases b with
    | true => exact ⟨116, _, rfl, by decide, by decide, by decide, by decide⟩
    | false => exact ⟨102, _, rfl, by decide, by decide, by decide, by decide⟩
  | str s => exact ⟨34, _, rfl, by decide, by decide, by decide, by decide⟩
  | arr xs => exact ⟨91, _, rfl, by decide, by decide, by decide, by decide⟩
  | obj kvs => exact ⟨123, _, rfl, by decide, by decide, by decide, by decide⟩
  | num i =>
    by_cases hneg : i < 0
    · refine ⟨45, natDec i.natAbs, ?_, by decide, by decide, by decide, by decide⟩
      simp [serJson, serInt, hneg]
    · obtain ⟨c, t, hct⟩ : ∃ c t, natDec i.toNat = c :: t := by
        match h : natDec i.toNat with
        | [] => exact absurd h (natDec_ne_nil _)
        | c :: t => exact ⟨c, t, rfl⟩
      have hcd : isDigitC c = true :=
        natDec_digits i.toNat c (by rw [hct]; exact List.mem_cons_self c t)
      have hcb : 48 ≤ c ∧ c ≤ 57 := by simpa [isDigitC] using hcd
      refine ⟨c, t, ?_, ?_, by omega, by omega, by omega⟩
      · simp [serJson, serInt, hneg, hct]
      · simp [isJWs]; omega

theorem skipWs_serJson_append (j : Json) (x : List Nat) :
    skipWs (serJson j ++ x) = serJson j ++ x := by
  obtain ⟨c, t, hct, hws, _, _, _⟩ := serJson_head j
  rw [hct, List.cons_append, skipWs_cons c hws]

theorem serJson_len_pos (j : Json) : 1 ≤ (serJson j).length := by
  obtain ⟨c, t, hct, _, _, _, _⟩ := serJson_head j
  simp [hct]

theorem litPref_head_ne (p c : Nat) (ps t : List Nat) (h : ¬ p = c) :
    litPref (p :: ps) (c :: t) = false := by
  simp [litPref, h]

theorem litPref_null_ne (c : Nat) (t : List Nat) (h : ¬ c = 110) :
    litPref (sc "null") (c :: t) = false := by
  rw [show sc "null" = 110 :: [117, 108, 108] from rfl]
  exact litPref_head_ne _ _ _ _ (by omega)

theorem litPref_true_ne (c : Nat) (t : List Nat) (h : ¬ c = 116) :
    litPref (sc "true") (c :: t) = false := by
  rw [show sc "true" = 116 :: [114, 117, 101] from rfl]
  exact litPref_head_ne _ _ _ _ (by omega)

theorem litPref_false_ne (c : Nat) (t : List Nat) (h : ¬ c = 102) :
    litPref (sc "false") (c :: t) = false := by
  rw [show sc "false" = 102 :: [97, 108, 115, 101] from rfl]
  exact litPref_head_ne _ _ _ _ (by omega)

theorem parseVal_toNum (f c : Nat) (t : List Nat)
    (h : c = 45 ∨ (48 ≤ c ∧ c ≤ 57)) :
    parseVal (f + 1) (c :: t) = parseNum (c :: t) := by
  simp only [parseVal]
  rw [if_neg (by omega), if_neg (by omega), if_neg (by omega),
    litPref_null_ne c t (by omega), litPref_true_ne c t (by omega),
    litPref_false_ne c t (by omega)]
  simp

theorem keyAbsent_mem (k : List Nat) (d : List (List Nat × Json))
    (h : keyAbsent k d = true) : ∀ kv ∈ d, ¬ kv.1 = k := by
  induction d with
  | nil => simp
  | cons kv0 r ih =>
    intro kv hkv
    rw [keyAbsent] at h
    by_cases he : kv0.1 = k
    · rw [if_pos he] at h; exact absurd h (by simp)
    · rw [if_neg he] at h
      rcases List.mem_cons.mp hkv with hkv | hkv
      · subst hkv; exact he
      · exact ih h kv hkv

theorem keyAbsent_append (k : List Nat) (a b : List (List Nat × Json)) :
    keyAbsent k (a ++ b) = (keyAbsent k a && keyAbsent k b) := by
  induction a with
  | nil => simp [keyAbsent]
  | cons kv r ih =>
    obtain ⟨k0, v0⟩ := kv
    by_cases he : k0 = k
    · simp [keyAbsent, he]
    · simp [keyAbsent, he, ih]

theorem dictInsert_absent (d : List (List Nat × Json)) (k : List Nat) (v : Json)
    (h : keyAbsent k d = true) : dictInsert d k v = d ++ [(k, v)] := by
  induction d with
  | nil => rfl
  | cons kv r ih =>
    obtain ⟨k0, v0⟩ := kv
    rw [keyAbsent] at h
    by_cases he : k0 = k
    · rw [if_pos he] at h; exact absurd h (by simp)
    · rw [if_neg he] at h
      simp [dictInsert, he, ih h]

theorem pyDictFold_app (kvs : List (List Nat × Json)) :
    ∀ acc, (∀ kv ∈ kvs, keyAbsent kv.1 acc = true) → wfObj kvs = true →
    List.foldl (fun d kv => dictInsert d kv.1 kv.2) acc kvs = acc ++ kvs := by
  induction kvs with
  | nil => intro acc _ _; simp
  | cons kv r ih =>
    intro acc hacc hwf
    obtain ⟨k, v⟩ := kv
    have hw : ((scalarStr k = true ∧ keyAbsent k r = true) ∧ wfJson v = true) ∧
        wfObj r = true := by simpa [wfObj] using hwf
    obtain ⟨⟨⟨hk, habs⟩, hv⟩, hr⟩ := hw
    rw [List.foldl_cons]
    rw [show dictInsert acc (k, v).1 (k, v).2 = acc ++ [(k, v)] from
      dictInsert_absent acc k v (hacc (k, v) (by simp))]
    rw [ih (acc ++ [(k, v)]) ?_ hr]
    · simp
    · intro kv2 hkv2
      rw [keyAbsent_append]
      have h1 : keyAbsent kv2.1 acc = true := hacc kv2 (by simp [hkv2])
      have hne : ¬ kv2.1 = k := keyAbsent_mem k r habs kv2 hkv2
      have h2 : keyAbsent kv2.1 [(k, v)] = true := by
        have hne2 : ¬ k = kv2.1 := fun he => hne he.symm
        simp [keyAbsent, hne2]
      rw [h1, h2]
      rfl

theorem pyDictOfPairs_wf (kvs : List (List Nat × Json)) (h : wfObj kvs = true) :
    pyDictOfPairs kvs = kvs := by
  rw [pyDictOfPairs, pyDictFold_app kvs [] (by intro kv _; rfl) h]
  rfl

theorem numBoundary93 (t : List Nat) : numBoundary (93 :: t) = true := rfl

theorem numBoundary44 (t : List Nat) : numBoundary (44 :: t) = true := rfl

theorem numBoundary125 (t : List Nat) : numBoundary (125 :: t) = true := rfl

mutual

theorem rtVal : ∀ (j : Json) (fuel : Nat) (rest : List Nat),
    wfJson j = true → (serJson j).length < fuel → numBoundary rest = true →
    parseVal fuel (serJson j ++ rest) = some (j, rest)
  | .null, fuel, rest, _, hf, _ => by
    cases fuel with
    | zero => exact absurd hf (Nat.not_lt_zero _)
    | succ f => rfl
  | .bool true, fuel, rest, _, hf, _ => by
    cases fuel with
    | zero => exact absurd hf (Nat.not_lt_zero _)
    | succ f => rfl
  | .bool false, fuel, rest, _, hf, _ => by
    cases fuel with
    | zero => exact absurd hf (Nat.not_lt_zero _)
    | succ f => rfl
  | .num i, fuel, rest, _, hf, hb => by
    cases fuel with
    | zero => exact absurd hf (Nat.not_lt_zero _)
    | succ f =>
      by_cases hneg : i < 0
      · have hser : serJson (.num i) = 45 :: natDec i.natAbs := by
          simp [serJson, serInt, hneg]
        rw [hser, List.cons_append, parseVal_toNum f 45 _ (Or.inl rfl),
          ← List.cons_append, ← hser, show serJson (.num i) = serInt i from rfl]
        exact parseNum_serInt i rest hb
      · obtain ⟨c, t, hct⟩ : ∃ c t, natDec i.toNat = c :: t := by
          match h : natDec i.toNat with
          | [] => exact absurd h (natDec_ne_nil _)
          | c :: t => exact ⟨c, t, rfl⟩
        have hcb : 48 ≤ c ∧ c ≤ 57 := by
          simpa [isDigitC] using
            natDec_digits i.toNat c (by rw [hct]; exact List.mem_cons_self c t)
        have hser : serJson (.num i) = c :: t := by
          simp [serJson, serInt, hneg, hct]
        rw [hser, List.cons_append, parseVal_toNum f c _ (Or.inr hcb),
          ← List.cons_append, ← hser, show serJson (.num i) = serInt i from rfl]
        exact parseNum_serInt i rest hb
  | .str s, fuel, rest, hw, hf, _ => by
    cases fuel with
    | zero => exact absurd hf (Nat.not_lt_zero _)
    | succ f =>
      have hwf : scalarStr s = true := by simpa [wfJson] using hw
      rw [show serJson (.str s) ++ rest = 34 :: (serStrBody s ++ 34 :: rest) by
        simp [serJson, serStr]]
      simp only [parseVal, reduceIte]
      rw [parseStrBody_ser s hwf ((serStrBody s ++ 34 :: rest).length + 1) rest
        (by have := serStrBody_len s; simp [List.length_append]; omega)]
  | .arr [], fuel, rest, _, hf, _ => by
    cases fuel with
    | zero => exact absurd hf (Nat.not_lt_zero _)
    | succ f => rfl
  | .arr (x :: xs), fuel, rest, hw, hf, _ => by
    cases fuel with
    | zero => exact absurd hf (Nat.not_lt_zero _)
    | succ f =>
      obtain ⟨c2, t2, hct, hws, hne93, _, _⟩ := serJson_head x
      have harr : serJson (.arr (x :: xs)) ++ rest =
          91 :: (serArrBody (x :: xs) ++ 93 :: rest) := by
        simp [serJson]
      have hbody : serArrBody (x :: xs) ++ 93 :: rest =
          c2 :: (t2 ++ (serArrTail xs ++ 93 :: rest)) := by
        simp [serArrBody, hct]
      rw [harr]
      simp only [parseVal, reduceIte]
      rw [hbody, skipWs_cons c2 hws]
      simp only [if_neg hne93]
      rw [← hbody]
      rw [rtArr x xs f rest (by simpa [wfJson] using hw) (by
        simp only [serJson, List.length_cons, List.length_append,
          List.length_singleton] at hf
        omega)]
      simp
  | .obj [], fuel, rest, _, hf, _ => by
    cases fuel with
    | zero => exact absurd hf (Nat.not_lt_zero _)
    | succ f => rfl
  | .obj ((k, v) :: kvs), fuel, rest, hw, hf, _ => by
    cases fuel with
    | zero => exact absurd hf (Nat.not_lt_zero _)
    | succ f =>
      have hobj : serJson (.obj ((k, v) :: kvs)) ++ rest =
          123 :: (serObjBody ((k, v) :: kvs) ++ 125 :: rest) := by
        simp [serJson]
      have hw34 : serObjBody ((k, v) :: kvs) ++ 125 :: rest =
          34 :: ((serStrBody k ++ [34]) ++
            (58 :: (serJson v ++ serObjTail kvs)) ++ 125 :: rest) := by
        simp [serObjBody, serStr]
      rw [hobj]
      simp only [parseVal, reduceIte]
      rw [hw34, skipWs_cons 34 (by decide)]
      simp only [if_neg (show ¬ (34 : Nat) = 125 by decide)]
      rw [← hw34]
      rw [rtObjM k v kvs f rest (by simpa [wfJson] using hw) (by
        simp only [serJson, List.length_cons, List.length_append,
          List.length_singleton] at hf
        omega)]
      simp [pyDictOfPairs_wf _ (by simpa [wfJson] using hw)]
  termination_by j _ _ _ _ _ => sizeOf j

theorem rtArr : ∀ (x : Json) (xs : List Json) (fuel : Nat) (rest : List Nat),
    wfArr (x :: xs) = true → (serArrBody (x :: xs)).length + 1 < fuel →
    parseArrElems fuel (serArrBody (x :: xs) ++ 93 :: rest) = some (x :: xs, rest)
  | x, [], fuel, rest, hw, hf => by
    cases fuel with
    | zero => exact absurd hf (Nat.not_lt_zero _)
    | succ f =>
      have hwx : wfJson x = true := by simpa [wfArr] using hw
      have hser : serArrBody (x :: []) ++ 93 :: rest =
          serJson x ++ 93 :: rest := by
        simp [serArrBody, serArrTail]
      rw [hser]
      simp only [parseArrElems]
      rw [rtVal x f (93 :: rest) hwx (by
        simp only [serArrBody, serArrTail, List.length_append,
          List.length_nil] at hf
        omega) (numBoundary93 rest)]
      simp [skipWs_cons 93 (by decide)]
  | x, y :: ys, fuel, rest, hw, hf => by
    cases fuel with
    | zero => exact absurd hf (Nat.not_lt_zero _)
    | succ f =>
      obtain ⟨hwx, hwt⟩ : wfJson x = true ∧ wfArr (y :: ys) = true := by
        simpa [wfArr] using hw
      have hser : serArrBody (x :: y :: ys) ++ 93 :: rest =
          serJson x ++ (44 :: (serArrBody (y :: ys) ++ 93 :: rest)) := by
        simp [serArrBody, serArrTail]
      have hlen : (serArrBody (x :: y :: ys)).length =
          (serJson x).length + 1 + (serArrBody (y :: ys)).length := by
        simp [serArrBody, serArrTail, List.length_append]
        omega
      rw [hser]
      simp only [parseArrElems]
      rw [rtVal x f _ hwx (by omega) (numBoundary44 _)]
      simp only [skipWs_cons 44 (by decide),
        if_neg (show ¬ (44 : Nat) = 93 by decide),
        if_pos (show (44 : Nat) = 44 from rfl)]
      rw [show serArrBody (y :: ys) ++ 93 :: rest =
        serJson y ++ (serArrTail ys ++ 93 :: rest) by simp [serArrBody]]
      rw [skipWs_serJson_append]
      rw [show serJson y ++ (serArrTail ys ++ 93 :: rest) =
        serArrBody (y :: ys) ++ 93 :: rest by simp [serArrBody]]
      rw [rtArr y ys f rest hwt (by omega)]
      simp
  termination_by x xs _ _ _ _ => sizeOf x + sizeOf xs

theorem rtObjM : ∀ (k : List Nat) (v : Json) (kvs : List (List Nat × Json))
    (fuel : Nat) (rest : List Nat),
    wfObj ((k, v) :: kvs) = true →
    (serObjBody ((k, v) :: kvs)).length + 1 < fuel →
    parseObjMembers fuel (serObjBody ((k, v) :: kvs) ++ 125 :: rest) =
      some ((k, v) :: kvs, rest)
  | k, v, [], fuel, rest, hw, hf => by
    cases fuel with
    | zero => exact absurd hf (Nat.not_lt_zero _)
    | succ f =>
      have hws : ((scalarStr k = true ∧ keyAbsent k [] = true) ∧
          wfJson v = true) ∧ wfObj ([] : List (List Nat × Json)) = true := by
        simpa [wfObj] using hw
      obtain ⟨⟨⟨hk, _⟩, hv⟩, _⟩ := hws
      have hser : serObjBody ((k, v) :: []) ++ 125 :: rest =
          34 :: (serStrBody k ++ 34 :: (58 :: (serJson v ++ 125 :: rest))) := by
        simp [serObjBody, serStr, serObjTail]
      have hlen : (serObjBody ((k, v) :: [])).length =
          (serStrBody k).length + 3 + (serJson v).length := by
        simp [serObjBody, serStr, serObjTail, List.length_append]
        omega
      rw [hser]
      simp only [parseObjMembers, reduceIte]
      rw [parseStrBody_ser k hk _ _ (by
        have := serStrBody_len k
        simp [List.length_append]
        omega)]
      simp only [skipWs_cons 58 (by decide),
        if_pos (show (58 : Nat) = 58 from rfl)]
      rw [skipWs_serJson_append]
      rw [rtVal v f (125 :: rest) hv (by omega) (numBoundary125 rest)]
      simp [skipWs_cons 125 (by decide)]
  | k, v, (k2, v2) :: r, fuel, rest, hw, hf => by
    cases fuel with
    | zero => exact absurd hf (Nat.not_lt_zero _)
    | succ f =>
      have hws : ((scalarStr k = true ∧ keyAbsent k ((k2, v2) :: r) = true) ∧
          wfJson v = true) ∧ wfObj ((k2, v2) :: r) = true := by
        simpa [wfObj] using hw
      obtain ⟨⟨⟨hk, _⟩, hv⟩, hr⟩ := hws
      have hser : serObjBody ((k, v) :: (k2, v2) :: r) ++ 125 :: rest =
          34 :: (serStrBody k ++ 34 :: (58 :: (serJson v ++
            (44 :: (serObjBody ((k2, v2) :: r) ++ 125 :: rest))))) := by
        simp [serObjBody, serStr, serObjTail]
      have hlen : (serObjBody ((k, v) :: (k2, v2) :: r)).length =
          (serStrBody k).length + 4 + (serJson v).length +
            (serObjBody ((k2, v2) :: r)).length := by
        simp [serObjBody, serStr, serObjTail, List.length_append]
        omega
      rw [hser]
      simp only [parseObjMembers, reduceIte]
      rw [parseStrBody_ser k hk _ _ (by
        have := serStrBody_len k
        simp [List.length_append]
        omega)]
      simp only [skipWs_cons 58 (by decide),
        if_pos (show (58 : Nat) = 58 from rfl)]
      rw [skipWs_serJson_append]
      rw [rtVal v f _ hv (by omega) (numBoundary44 _)]
      simp only [skipWs_cons 44 (by decide),
        if_neg (show ¬ (44 : Nat) = 125 by decide),
        if_pos (show (44 : Nat) = 44 from rfl)]
      rw [show serObjBody ((k2, v2) :: r) ++ 125 :: rest =
        34 :: ((serStrBody k2 ++ [34]) ++
          (58 :: (serJson v2 ++ serObjTail r)) ++ 125 :: rest) by
        simp [serObjBody, serStr]]
      rw [skipWs_cons 34 (by decide)]
      rw [show (34 : Nat) :: ((serStrBody k2 ++ [34]) ++
          (58 :: (serJson v2 ++ serObjTail r)) ++ 125 :: rest) =
        serObjBody ((k2, v2) :: r) ++ 125 :: rest by
        simp [serObjBody, serStr]]
      rw [rtObjM k2 v2 r f rest hr (by omega)]
      simp
  termination_by k v kvs _ _ _ _ => sizeOf v + sizeOf kvs

end

theorem jsonLoads_ser (j : Json) (h : wfJson j = true) :
    jsonLoads (serJson j) = some j := by
  have hrt := rtVal j ((serJson j).length + 1) [] h (by omega) rfl
  rw [List.append_nil] at hrt
  rw [jsonLoads]
  have h0 : skipWs (serJson j) = serJson j := by
    simpa using skipWs_serJson_append j []
  rw [h0, hrt]
  rfl

/-! ### Everything the serializer emits is ASCII -/

theorem hexDig_lt128 (v : Nat) (h : v < 16) : hexDig v < 128 := by
  rw [hexDig]
  split <;> omega

theorem hex4enc_lt128 (n : Nat) : ∀ c ∈ hex4enc n, c < 128 := by
  intro c hc
  simp only [hex4enc, List.mem_cons, List.not_mem_nil, or_false] at hc
  rcases hc with h | h | h | h <;>
    (subst h; exact hexDig_lt128 _ (Nat.mod_lt _ (by omega)))

theorem escapeChar_lt128 (c : Nat) : ∀ x ∈ escapeChar c, x < 128 := by
  intro x hx
  rw [escapeChar] at hx
  by_cases h34 : c = 34
  · simp [h34] at hx; omega
  rw [if_neg h34] at hx
  by_cases h92 : c = 92
  · simp [h92] at hx; omega
  rw [if_neg h92] at hx
  by_cases hpr : 32 ≤ c ∧ c ≤ 126
  · rw [if_pos hpr] at hx; simp at hx; omega
  rw [if_neg hpr] at hx
  by_cases h8 : c = 8
  · simp [h8] at hx; omega
  rw [if_neg h8] at hx
  by_cases h9 : c = 9
  · simp [h9] at hx; omega
  rw [if_neg h9] at hx
  by_cases h10 : c = 10
  · simp [h10] at hx; omega
  rw [if_neg h10] at hx
  by_cases h12 : c = 12
  · simp [h12] at hx; omega
  rw [if_neg h12] at hx
  by_cases h13 : c = 13
  · simp [h13] at hx; omega
  rw [if_neg h13] at hx
  by_cases hlt : c < 65536
  · rw [if_pos hlt] at hx
    simp only [List.mem_cons] at hx
    rcases hx with h | h | h
    · omega
    · omega
    · exact hex4enc_lt128 c x h
  · rw [if_neg hlt] at hx
    simp only [List.mem_append, List.mem_cons] at hx
    rcases hx with (h | h | h) | (h | h | h)
    · omega
    · omega
    · exact hex4enc_lt128 _ x h
    · omega
    · omega
    · exact hex4enc_lt128 _ x h

theorem serStrBody_lt128 (s : List Nat) : ∀ c ∈ serStrBody s, c < 128 := by
  induction s with
  | nil => simp [serStrBody]
  | cons c r ih =>
    intro x hx
    rw [serStrBody, List.mem_append] at hx
    rcases hx with h | h
    · exact escapeChar_lt128 c x h
    · exact ih x h

theorem serStr_lt128 (s : List Nat) : ∀ c ∈ serStr s, c < 128 := by
  intro x hx
  rw [serStr] at hx
  rcases List.mem_cons.mp hx with h | h
  · omega
  · rcases List.mem_append.mp h with h | h
    · exact serStrBody_lt128 s x h
    · simp at h; omega

theorem natDec_lt128 (n : Nat) : ∀ c ∈ natDec n, c < 128 := by
  intro c hc
  have := natDec_digits n c hc
  simp [isDigitC] at this
  omega

theorem serInt_lt128 (i : Int) : ∀ c ∈ serInt i, c < 128 := by
  intro c hc
  rw [serInt] at hc
  by_cases h : i < 0
  · rw [if_pos h] at hc
    simp only [List.mem_cons] at hc
    rcases hc with h1 | h1
    · omega
    · exact natDec_lt128 _ c h1
  · rw [if_neg h] at hc
    exact natDec_lt128 _ c hc

mutual

theorem serJson_lt128 : ∀ (j : Json), ∀ c ∈ serJson j, c < 128
  | .null => by
    intro c hc
    rw [show serJson .null = [110, 117, 108, 108] from rfl] at hc
    simp at hc; omega
  | .bool true => by
    intro c hc
    rw [show serJson (.bool true) = [116, 114, 117, 101] from rfl] at hc
    simp at hc; omega
  | .bool false => by
    intro c hc
    rw [show serJson (.bool false) = [102, 97, 108, 115, 101] from rfl] at hc
    simp at hc; omega
  | .num i => by intro c hc; exact serInt_lt128 i c hc
  | .str s => by intro c hc; exact serStr_lt128 s c hc
  | .arr xs => by
    intro c hc
    rw [serJson] at hc
    rcases List.mem_cons.mp hc with h | h
    · omega
    · rcases List.mem_append.mp h with h | h
      · exact serArrBody_lt128 xs c h
      · simp at h; omega
  | .obj kvs => by
    intro c hc
    rw [serJson] at hc
    rcases List.mem_cons.mp hc with h | h
    · omega
    · rcases List.mem_append.mp h with h | h
      · exact serObjBody_lt128 kvs c h
      · simp at h; omega
  termination_by j => sizeOf j

theorem serArrBody_lt128 : ∀ (xs : List Json), ∀ c ∈ serArrBody xs, c < 128
  | [] => by simp [serArrBody]
  | x :: r => by
    intro c hc
    rw [serArrBody] at hc
    rcases List.mem_append.mp hc with h | h
    · exact serJson_lt128 x c h
    · exact serArrTail_lt128 r c h
  termination_by xs => sizeOf xs

theorem serArrTail_lt128 : ∀ (xs : List Json), ∀ c ∈ serArrTail xs, c < 128
  | [] => by simp [serArrTail]
  | x :: r => by
    intro c hc
    rw [serArrTail] at hc
    rcases List.mem_cons.mp hc with h | h
    · omega
    · rcases List.mem_append.mp h with h | h
      · exact serJson_lt128 x c h
      · exact serArrTail_lt128 r c h
  termination_by xs => sizeOf xs

theorem serObjBody_lt128 : ∀ (kvs : List (List Nat × Json)),
    ∀ c ∈ serObjBody kvs, c < 128
  | [] => by simp [serObjBody]
  | (k, v) :: r => by
    intro c hc
    rw [serObjBody] at hc
    rcases List.mem_append.mp hc with h | h
    · exact serStr_lt128 k c h
    · rcases List.mem_cons.mp h with h | h
      · omega
      · rcases List.mem_append.mp h with h | h
        · exact serJson_lt128 v c h
        · exact serObjTail_lt128 r c h
  termination_by kvs => sizeOf kvs

theorem serObjTail_lt128 : ∀ (kvs : List (List Nat × Json)),
    ∀ c ∈ serObjTail kvs, c < 128
  | [] => by simp [serObjTail]
  | (k, v) :: r => by
    intro c hc
    rw [serObjTail] at hc
    rcases List.mem_cons.mp hc with h | h
    · omega
    · rcases List.mem_append.mp h with h | h
      · exact serStr_lt128 k c h
      · rcases List.mem_cons.mp h with h | h
        · omega
        · rcases List.mem_append.mp h with h | h
          · exact serJson_lt128 v c h
          · exact serObjTail_lt128 r c h
  termination_by kvs => sizeOf kvs

end

theorem utf8EncChar_ascii (c : Nat) (h : c < 128) : utf8EncChar c = [c] := by
  simp [utf8EncChar, h]

theorem utf8Encode_ascii (s : List Nat) (h : ∀ c ∈ s, c < 128) :
    utf8Encode s = s := by
  induction s with
  | nil => rfl
  | cons c r ih =>
    rw [utf8Encode, utf8EncChar_ascii c (h c (by simp)),
      ih (fun x hx => h x (by simp [hx]))]
    rfl

theorem utf8Step_ascii (b : Nat) (r : List Nat) (h : b < 128) :
    utf8Step b r = some (b, r) := by
  rw [utf8Step.eq_def, if_pos h]

theorem utf8DecodeFuel_ascii (s : List Nat) : ∀ (fuel : Nat), s.length < fuel →
    (∀ c ∈ s, c < 128) → utf8DecodeFuel fuel s = some s := by
  induction s with
  | nil =>
    intro fuel hf _
    match fuel, hf with
    | fuel + 1, _ => rfl
  | cons c r ih =>
    intro fuel hf h
    match fuel, hf with
    | fuel + 1, hf =>
      rw [utf8DecodeFuel, utf8Step_ascii c r (h c (by simp))]
      simp only [ih fuel (by simp at hf; omega) (fun x hx => h x (by simp [hx]))]

theorem utf8Decode_ascii (s : List Nat) (h : ∀ c ∈ s, c < 128) :
    utf8Decode s = some s :=
  utf8DecodeFuel_ascii s (s.length + 1) (by omega) h

/-! ### Frame codec round trip -/

theorem readline_append (a : List Nat) (rest : List Nat)
    (ha : ∀ c ∈ a, ¬ c = 10) : readline (a ++ 10 :: rest) = (a ++ [10], rest) := by
  induction a with
  | nil => simp [readline]
  | cons c t ih =>
    rw [List.cons_append, readline, if_neg (ha c (by simp)),
      ih (fun x hx => ha x (by simp [hx]))]
    rfl

theorem rstripCRLF_end (b : List Nat) (c : Nat) (h13 : ¬ c = 13)
    (h10 : ¬ c = 10) : rstripCRLF ((b ++ [c]) ++ [13, 10]) = b ++ [c] := by
  simp [rstripCRLF, List.dropWhile, h13, h10]

theorem dropWhile_false (p : Nat → Bool) (l : List Nat)
    (h : ∀ c ∈ l, p c = false) : l.dropWhile p = l := by
  induction l with
  | nil => rfl
  | cons c t ih =>
    have hc : p c = false := h c (by simp)
    have ht := ih (fun x hx => h x (by simp [hx]))
    simp [List.dropWhile_cons, hc, ht]

theorem stripWS_nows (l : List Nat) (h : ∀ c ∈ l, isStrWs c = false) :
    stripWS l = l := by
  rw [stripWS, dropWhile_false _ l h,
    dropWhile_false _ _ (fun c hc => h c (List.mem_reverse.mp hc)),
    List.reverse_reverse]

theorem digits_not_ws (ds : List Nat) (h : ∀ c ∈ ds, isDigitC c = true) :
    ∀ c ∈ ds, isStrWs c = false := by
  intro c hc
  have := h c hc
  simp only [isDigitC, decide_eq_true_eq] at this
  simp only [isStrWs, decide_eq_false_iff_not]
  omega

theorem stripWS_space (ds : List Nat) (h : ∀ c ∈ ds, isStrWs c = false) :
    stripWS (32 :: ds) = ds := by
  rw [stripWS, List.dropWhile_cons_of_pos (by decide), dropWhile_false _ ds h,
    dropWhile_false _ _ (fun c hc => h c (List.mem_reverse.mp hc)),
    List.reverse_reverse]

theorem splitFirstColon_append (a b : List Nat) (ha : ∀ c ∈ a, ¬ c = 58) :
    splitFirstColon (a ++ 58 :: b) = (a, b) := by
  induction a with
  | nil => simp [splitFirstColon]
  | cons c t ih =>
    rw [List.cons_append, splitFirstColon, if_neg (ha c (by simp)),
      ih (fun x hx => ha x (by simp [hx]))]

theorem contains58_mid (a w : List Nat) : (a ++ 58 :: w).contains 58 = true := by
  induction a with
  | nil => simp
  | cons c t ih => simp [ih]

theorem allDigits_of (l : List Nat) (h : ∀ c ∈ l, isDigitC c = true) :
    allDigits l = true := by
  induction l with
  | nil => rfl
  | cons c t ih =>
    rw [allDigits, h c (by simp), ih (fun x hx => h x (by simp [hx]))]
    rfl

theorem pyInt_natDec (n : Nat) : pyInt (natDec n) = some ((n : Nat) : Int) := by
  rw [pyInt]
  rw [stripWS_nows _ (digits_not_ws _ (natDec_digits n))]
  obtain ⟨c, ds, hcds⟩ : ∃ c ds, natDec n = c :: ds := by
    match h : natDec n with
    | [] => exact absurd h (natDec_ne_nil _)
    | c :: ds => exact ⟨c, ds, rfl⟩
  have hcd : 48 ≤ c ∧ c ≤ 57 := by
    simpa [isDigitC] using
      natDec_digits n c (by rw [hcds]; exact List.mem_cons_self c ds)
  rw [hcds]
  simp only [if_neg (show ¬ c = 43 by omega), if_neg (show ¬ c = 45 by omega),
    if_pos (show allDigits (c :: ds) = true by
      rw [← hcds]; exact allDigits_of _ (natDec_digits n))]
  rw [show digitsVal (c :: ds) = n by rw [← hcds, digitsVal_natDec]]

theorem clHeader_shape (L : Nat) :
    sc "Content-Length: " ++ natDec L =
      sc "Content-Length" ++ 58 :: (32 :: natDec L) := by
  rw [show sc "Content-Length: " = sc "Content-Length" ++ [58, 32] from rfl]
  simp

theorem clLine_ascii (L : Nat) :
    ∀ c ∈ sc "Content-Length: " ++ natDec L ++ [13, 10], c < 128 := by
  intro c hc
  rcases List.mem_append.mp hc with h | h
  · rcases List.mem_append.mp h with h | h
    · have hall : ∀ x ∈ sc "Content-Length: ", x < 128 := by decide
      exact hall c h
    · exact natDec_lt128 L c h
  · simp at h; omega

theorem clLine_no10 (L : Nat) :
    ∀ c ∈ sc "Content-Length: " ++ natDec L ++ [13], ¬ c = 10 := by
  intro c hc
  rcases List.mem_append.mp hc with h | h
  · rcases List.mem_append.mp h with h | h
    · have hall : ∀ x ∈ sc "Content-Length: ", ¬ x = 10 := by decide
      exact hall c h
    · have := natDec_digits L c h
      simp [isDigitC] at this
      omega
  · simp at h; omega

theorem readHeadersSrv_frame (fuel : Nat) (hfuel : 2 ≤ fuel)
    (acc : List (List Nat × List Nat)) (L : Nat) (body : List Nat) :
    readHeadersSrv fuel acc
      (sc "Content-Length: " ++ natDec L ++ (13 :: 10 :: 13 :: 10 :: body)) =
      some (hdInsert acc clKey (natDec L), body) := by
  obtain ⟨f, rfl⟩ : ∃ f, fuel = f + 2 := ⟨fuel - 2, by omega⟩
  have hstream : sc "Content-Length: " ++ natDec L ++ (13 :: 10 :: 13 :: 10 :: body) =
      (sc "Content-Length: " ++ natDec L ++ [13]) ++ 10 :: (13 :: 10 :: body) := by
    simp
  rw [hstream, readHeadersSrv, readline_append _ _ (clLine_no10 L)]
  have hline : (sc "Content-Length: " ++ natDec L ++ [13]) ++ [10] =
      sc "Content-Length: " ++ natDec L ++ [13, 10] := by simp
  simp only [hline]
  rw [if_neg (show ¬ (sc "Content-Length: " ++ natDec L ++ [13, 10]) = [] by simp)]
  rw [utf8Decode_ascii _ (clLine_ascii L)]
  obtain ⟨pre, hpre⟩ : ∃ pre, natDec L = pre ++ [48 + L % 10] :=
    ⟨if L < 10 then [] else natDec (L / 10), natDec_unfold L⟩
  have hstrip : rstripCRLF (sc "Content-Length: " ++ natDec L ++ [13, 10]) =
      sc "Content-Length: " ++ natDec L := by
    rw [hpre, show sc "Content-Length: " ++ (pre ++ [48 + L % 10]) ++ [13, 10] =
      ((sc "Content-Length: " ++ pre) ++ [48 + L % 10]) ++ [13, 10] by simp]
    rw [rstripCRLF_end _ _ (by omega) (by omega)]
    simp
  simp only [hstrip]
  rw [if_neg (show ¬ (sc "Content-Length: " ++ natDec L) = [] by
    rw [clHeader_shape]; simp)]
  rw [if_pos (by rw [clHeader_shape]; exact contains58_mid _ _)]
  rw [clHeader_shape, splitFirstColon_append _ _ (by decide)]
  simp only [show stripWS (sc "Content-Length") = sc "Content-Length" from rfl,
    show lowerStr (sc "Content-Length") = clKey from rfl,
    stripWS_space _ (digits_not_ws _ (natDec_digits L))]
  rfl

theorem readHeadersCli_frame (fuel : Nat) (hfuel : 2 ≤ fuel)
    (acc : List (List Nat × List Nat)) (L : Nat) (body : List Nat) :
    readHeadersCli fuel acc
      (sc "Content-Length: " ++ natDec L ++ (13 :: 10 :: 13 :: 10 :: body)) =
      .ok (some (hdInsert acc clKey (natDec L), body)) := by
  obtain ⟨f, rfl⟩ : ∃ f, fuel = f + 2 := ⟨fuel - 2, by omega⟩
  have hstream : sc "Content-Length: " ++ natDec L ++ (13 :: 10 :: 13 :: 10 :: body) =
      (sc "Content-Length: " ++ natDec L ++ [13]) ++ 10 :: (13 :: 10 :: body) := by
    simp
  rw [hstream, readHeadersCli, readline_append _ _ (clLine_no10 L)]
  have hline : (sc "Content-Length: " ++ natDec L ++ [13]) ++ [10] =
      sc "Content-Length: " ++ natDec L ++ [13, 10] := by simp
  simp only [hline]
  rw [if_neg (show ¬ (sc "Content-Length: " ++ natDec L ++ [13, 10]) = [] by simp)]
  rw [utf8Decode_ascii _ (clLine_ascii L)]
  obtain ⟨pre, hpre⟩ : ∃ pre, natDec L = pre ++ [48 + L % 10] :=
    ⟨if L < 10 then [] else natDec (L / 10), natDec_unfold L⟩
  have hstrip : rstripCRLF (sc "Content-Length: " ++ natDec L ++ [13, 10]) =
      sc "Content-Length: " ++ natDec L := by
    rw [hpre, show sc "Content-Length: " ++ (pre ++ [48 + L % 10]) ++ [13, 10] =
      ((sc "Content-Length: " ++ pre) ++ [48 + L % 10]) ++ [13, 10] by simp]
    rw [rstripCRLF_end _ _ (by omega) (by omega)]
    simp
  simp only [hstrip]
  rw [if_neg (show ¬ (sc "Content-Length: " ++ natDec L) = [] by
    rw [clHeader_shape]; simp)]
  rw [if_pos (by rw [clHeader_shape]; exact contains58_mid _ _)]
  rw [clHeader_shape, splitFirstColon_append _ _ (by decide)]
  simp only [show stripWS (sc "Content-Length") = sc "Content-Length" from rfl,
    show lowerStr (sc "Content-Length") = clKey from rfl,
    stripWS_space _ (digits_not_ws _ (natDec_digits L))]
  rfl

theorem writeMessage_shape (m : Json) :
    writeMessage m = sc "Content-Length: " ++ natDec (serJson m).length ++
      (13 :: 10 :: 13 :: 10 :: serJson m) := by
  rw [writeMessage]
  rw [utf8Encode_ascii (serJson m) (serJson_lt128 m)]
  rw [utf8Encode_ascii _ (by
    intro c hc
    rcases List.mem_append.mp hc with h | h
    · rcases List.mem_append.mp h with h | h
      · have hall : ∀ x ∈ sc "Content-Length: ", x < 128 := by decide
        exact hall c h
      · exact natDec_lt128 _ c h
    · simp at h
      omega)]
  simp

theorem serverReadMessage_write (m : Json) (hw : wfJson m = true)
    (extra : List Nat) :
    serverReadMessage (writeMessage m ++ extra) = (some m, extra) := by
  have hshape : writeMessage m ++ extra = sc "Content-Length: " ++
      natDec (serJson m).length ++ (13 :: 10 :: 13 :: 10 :: (serJson m ++ extra)) := by
    rw [writeMessage_shape]
    simp
  rw [hshape, serverReadMessage]
  rw [readHeadersSrv_frame _ (by
    simp only [List.length_append, List.length_cons]
    omega) [] (serJson m).length (serJson m ++ extra)]
  simp only [show hdInsert [] clKey (natDec (serJson m).length) =
      [(clKey, natDec (serJson m).length)] from rfl,
    show hdLookup [(clKey, natDec (serJson m).length)] clKey =
      some (natDec (serJson m).length) by simp [hdLookup],
    pyInt_natDec,
    show streamRead ((((serJson m).length : Nat) : Int)) (serJson m ++ extra) =
        (serJson m, extra) by
      rw [streamRead, if_neg (by omega)]
      rw [show ((((serJson m).length : Nat) : Int)).toNat = (serJson m).length
        by omega]
      rw [List.take_left, List.drop_left],
    if_neg (show ¬ serJson m = [] by
      intro he
      have := serJson_len_pos m
      rw [he] at this
      simp at this),
    utf8Decode_ascii _ (serJson_lt128 m), jsonLoads_ser m hw]

theorem clientReadMessage_write (m : Json) (hw : wfJson m = true)
    (extra : List Nat) :
    clientReadMessage (writeMessage m ++ extra) = .ok (some m, extra) := by
  have hshape : writeMessage m ++ extra = sc "Content-Length: " ++
      natDec (serJson m).length ++ (13 :: 10 :: 13 :: 10 :: (serJson m ++ extra)) := by
    rw [writeMessage_shape]
    simp
  rw [hshape, clientReadMessage]
  rw [readHeadersCli_frame _ (by
    simp only [List.length_append, List.length_cons]
    omega) [] (serJson m).length (serJson m ++ extra)]
  simp only [show hdInsert [] clKey (natDec (serJson m).length) =
      [(clKey, natDec (serJson m).length)] from rfl,
    show hdLookup [(clKey, natDec (serJson m).length)] clKey =
      some (natDec (serJson m).length) by simp [hdLookup],
    pyInt_natDec,
    show streamRead ((((serJson m).length : Nat) : Int)) (serJson m ++ extra) =
        (serJson m, extra) by
      rw [streamRead, if_neg (by omega)]
      rw [show ((((serJson m).length : Nat) : Int)).toNat = (serJson m).length
        by omega]
      rw [List.take_left, List.drop_left],
    if_neg (show ¬ serJson m = [] by
      intro he
      have := serJson_len_pos m
      rw [he] at this
      simp at this),
    utf8Decode_ascii _ (serJson_lt128 m), jsonLoads_ser m hw]

/-! ### Responses constructed by the handlers: id echo, result/error shape -/

theorem jget_initialize (reqId : Json) :
    jget ( handle_initialize reqId) (sc "id") = reqId := rfl

theorem jget_tools_list (reqId : Json) :
    jget (handle_tools_list reqId) (sc "id") = reqId := rfl

theorem jget_okContentResp (reqId : Json) (t : List Nat) :
    jget (okContentResp reqId t) (sc "id") = reqId := rfl

theorem jget_errResp (reqId : Json) (code : Int) (msg : List Nat) :
    jget (errResp reqId code msg) (sc "id") = reqId := rfl

theorem exactlyOne_initialize (reqId : Json) :
    exactlyOneB ( handle_initialize reqId) = true := rfl

theorem exactlyOne_tools_list (reqId : Json) :
    exactlyOneB (handle_tools_list reqId) = true := rfl

theorem exactlyOne_okContentResp (reqId : Json) (t : List Nat) :
    exactlyOneB (okContentResp reqId t) = true := rfl

theorem exactlyOne_errResp (reqId : Json) (code : Int) (msg : List Nat) :
    exactlyOneB (errResp reqId code msg) = true := rfl

theorem toolsCallBody_id (fs : FS) (reqId name arguments : Json) (r : Json)
    (h : toolsCallBody fs reqId name arguments = .ok r) :
    jget r (sc "id") = reqId := by
  rw [toolsCallBody] at h
  repeat' split at h
  all_goals first
    | exact Except.noConfusion h
    | (subst h; rfl)
    | (simp only [Except.ok.injEq] at h; subst h; rfl)
    | ((try simp only [] at h); split at h <;>
        first
          | exact Except.noConfusion h
          | (simp only [Except.ok.injEq] at h; subst h; rfl))

theorem toolsCallBody_shape (fs : FS) (reqId name arguments : Json) (r : Json)
    (h : toolsCallBody fs reqId name arguments = .ok r) :
    exactlyOneB r = true := by
  rw [toolsCallBody] at h
  repeat' split at h
  all_goals first
    | exact Except.noConfusion h
    | (subst h; rfl)
    | (simp only [Except.ok.injEq] at h; subst h; rfl)
    | ((try simp only [] at h); split at h <;>
        first
          | exact Except.noConfusion h
          | (simp only [Except.ok.injEq] at h; subst h; rfl))

theorem handle_tools_call_id (fs : FS) (reqId params : Json) (r : Json)
    (h : handle_tools_call fs reqId params = .ok r) :
    jget r (sc "id") = reqId := by
  rw [handle_tools_call] at h
  split at h
  · exact Except.noConfusion h
  · split at h
    · exact Except.noConfusion h
    · simp only [] at h
      split at h <;> (try split at h) <;>
        first
          | exact Except.noConfusion h
          | (simp only [Except.ok.injEq] at h; subst h; rfl)
          | (simp only [Except.ok.injEq] at h
             subst h
             apply toolsCallBody_id
             assumption)

theorem handle_tools_call_shape (fs : FS) (reqId params : Json) (r : Json)
    (h : handle_tools_call fs reqId params = .ok r) :
    exactlyOneB r = true := by
  rw [handle_tools_call] at h
  split at h
  · exact Except.noConfusion h
  · split at h
    · exact Except.noConfusion h
    · simp only [] at h
      split at h <;> (try split at h) <;>
        first
          | exact Except.noConfusion h
          | (simp only [Except.ok.injEq] at h; subst h; rfl)
          | (simp only [Except.ok.injEq] at h
             subst h
             apply toolsCallBody_shape
             assumption)

theorem routeMsg_reply_id (fs : FS) (m : Json) (reply : Json) (term : Bool)
    (hroute : routeMsg fs m = .ok (some reply, term)) :
    jget reply (sc "id") = jget m (sc "id") := by
  simp only [routeMsg] at hroute
  split at hroute
  · simp only [Except.ok.injEq, Prod.mk.injEq, Option.some.injEq] at hroute
    rw [← hroute.1, jget_initialize]
  · split at hroute
    · simp only [Except.ok.injEq, Prod.mk.injEq, Option.some.injEq] at hroute
      rw [← hroute.1, jget_tools_list]
    · split at hroute
      · split at hroute
        · rename_i r0 heq
          simp only [Except.ok.injEq, Prod.mk.injEq, Option.some.injEq] at hroute
          rw [← hroute.1]
          exact handle_tools_call_id _ _ _ _ heq
        · simp at hroute
      · split at hroute
        · by_cases hid : isNone (jget m (sc "id")) = true
          · rw [if_pos hid] at hroute
            simp at hroute
          · rw [if_neg hid] at hroute
            simp only [Except.ok.injEq, Prod.mk.injEq, Option.some.injEq] at hroute
            rw [← hroute.1]
            rfl
        · by_cases hid : isNone (jget m (sc "id")) = true
          · rw [if_pos hid] at hroute
            simp at hroute
          · rw [if_neg hid] at hroute
            simp only [Except.ok.injEq, Prod.mk.injEq, Option.some.injEq] at hroute
            rw [← hroute.1, jget_errResp]

theorem routeMsg_reply_shape (fs : FS) (m : Json) (reply : Json) (term : Bool)
    (hroute : routeMsg fs m = .ok (some reply, term)) :
    exactlyOneB reply = true := by
  simp only [routeMsg] at hroute
  split at hroute
  · simp only [Except.ok.injEq, Prod.mk.injEq, Option.some.injEq] at hroute
    rw [← hroute.1, exactlyOne_initialize]
  · split at hroute
    · simp only [Except.ok.injEq, Prod.mk.injEq, Option.some.injEq] at hroute
      rw [← hroute.1, exactlyOne_tools_list]
    · split at hroute
      · split at hroute
        · rename_i r0 heq
          simp only [Except.ok.injEq, Prod.mk.injEq, Option.some.injEq] at hroute
          rw [← hroute.1]
          exact handle_tools_call_shape _ _ _ _ heq
        · simp at hroute
      · split at hroute
        · by_cases hid : isNone (jget m (sc "id")) = true
          · rw [if_pos hid] at hroute
            simp at hroute
          · rw [if_neg hid] at hroute
            simp only [Except.ok.injEq, Prod.mk.injEq, Option.some.injEq] at hroute
            rw [← hroute.1]
            rfl
        · by_cases hid : isNone (jget m (sc "id")) = true
          · rw [if_pos hid] at hroute
            simp at hroute
          · rw [if_neg hid] at hroute
            simp only [Except.ok.injEq, Prod.mk.injEq, Option.some.injEq] at hroute
            rw [← hroute.1, exactlyOne_errResp]

/-! ### Small facts about the Python-value helpers -/

theorem pyEqStr_eq (v : Json) (s : List Nat) (h : pyEqStr v s = true) :
    v = .str s := by
  cases v <;> simp_all [pyEqStr]

theorem pyGet_isDict (m : Json) (k : List Nat) (h : isDict m = true) :
    pyGet m k = .ok (jget m k) := by
  cases m <;> first | rfl | simp [isDict] at h

theorem isDict_of_pyGet (params : Json) (k : List Nat) (v : Json)
    (h : pyGet params k = .ok v) : isDict params = true := by
  cases params <;> first | rfl | exact Except.noConfusion h

theorem isNone_null (v : Json) (h : isNone v = true) : v = Json.null := by
  cases v <;> first | rfl | exact Bool.noConfusion h

theorem writeMessage_length_pos (m : Json) : 0 < (writeMessage m).length := by
  rw [writeMessage_shape]
  simp

theorem frames_length_le (ms : List Json) : ms.length ≤ (frames ms).length := by
  induction ms with
  | nil => simp [frames]
  | cons x r ih =>
    rw [frames, List.length_append, List.length_cons]
    have := writeMessage_length_pos x
    omega

/-! ### `handle_tools_call` as a catch wrapper around the tool body -/

theorem handle_tools_call_eq (fs : FS) (reqId params name : Json)
    (hname : pyGet params (sc "name") = .ok name)
    (hargs : pyGet params (sc "arguments") = .ok (jget params (sc "arguments"))) :
    handle_tools_call fs reqId params =
      match toolsCallBody fs reqId name (argsOf params) with
      | .ok resp => .ok resp
      | .error (.fileNotFound m) =>
        .ok (errResp reqId (-32000) (sc "File not found: " ++ m))
      | .error e =>
        .ok (errResp reqId (-32001) (sc "Server error: " ++ PyExc.text e)) := by
  rw [handle_tools_call, hname, hargs]
  simp only [argsOf]

/-! ### The shutdown/exit branch of the router -/

theorem routeMsg_shutdown_exit (fs : FS) (m : Json)
    (hm : jget m (sc "method") = .str (sc "shutdown") ∨
          jget m (sc "method") = .str (sc "exit")) :
    routeMsg fs m =
      .ok ((if isNone (jget m (sc "id")) then none
            else some (Json.obj [(sc "jsonrpc", Json.str (sc "2.0")),
              (sc "id", jget m (sc "id")), (sc "result", Json.obj [])])), true) := by
  rcases hm with hm | hm <;>
    (rw [routeMsg]; simp only [hm]; try rfl)

/-! ### Every reply the session writes satisfies the result/error invariant -/

theorem handleConnectionFuel_shape (fuel : Nat) : ∀ (fs : FS) (s : List Nat),
    ((handleConnectionFuel fuel fs s).1.all exactlyOneB) = true := by
  induction fuel with
  | zero => intro fs s; rfl
  | succ n ih =>
    intro fs s
    rw [handleConnectionFuel]
    rcases hsr : serverReadMessage s with ⟨o, rest⟩
    cases o with
    | none => rfl
    | some m =>
      cases hd : isDict m with
      | false =>
        simp only [hd]
        exact ih fs rest
      | true =>
        simp only [hd]
        cases hroute : routeMsg fs m with
        | error e => rfl
        | ok pr =>
          rcases pr with ⟨reply, term⟩
          cases term with
          | true =>
            cases reply with
            | none => rfl
            | some r =>
              show ([r].all exactlyOneB) = true
              have hr := routeMsg_reply_shape fs m r true hroute
              simp [hr]
          | false =>
            rcases hrec : handleConnectionFuel n fs rest with ⟨outs, e⟩
            have hih : outs.all exactlyOneB = true := by
              have h0 := ih fs rest
              rw [hrec] at h0
              exact h0
            cases reply with
            | none => simpa using hih
            | some r =>
              have hr := routeMsg_reply_shape fs m r false hroute
              simp [hr, hih]

/-! ### The correlation loop: skipping frames with a non-matching id -/

theorem callLoop_pre (reqId : Int) (pre : List Json)
    (hpre : ∀ x ∈ pre, wfJson x = true ∧ isDict x = true ∧
      pyEqInt (jget x (sc "id")) reqId = false) :
    ∀ (fuel : Nat) (s : List Nat), (frames pre).length + s.length < fuel →
      callLoop reqId fuel (frames pre ++ s) = callLoop reqId (fuel - pre.length) s := by
  induction pre with
  | nil =>
    intro fuel s hf
    simp [frames]
  | cons x pr ih =>
    intro fuel s hf
    obtain ⟨hw, hdict, hne⟩ := hpre x (List.mem_cons_self x pr)
    obtain ⟨f, rfl⟩ : ∃ f, fuel = f + 1 := ⟨fuel - 1, by omega⟩
    have hs : frames (x :: pr) ++ s = writeMessage x ++ (frames pr ++ s) := by
      rw [frames]; simp
    rw [hs, callLoop, clientReadMessage_write x hw (frames pr ++ s)]
    simp only [pyGet_isDict x _ hdict, hne, Bool.false_eq_true, if_false,
      List.length_cons]
    rw [show f + 1 - (pr.length + 1) = f - pr.length by omega]
    refine ih (fun y hy => hpre y (List.mem_cons_of_mem x hy)) f s ?_
    have hwx := writeMessage_length_pos x
    rw [frames] at hf
    simp only [List.length_append] at hf
    omega

/-! ### One decoded message: the step the connection loop takes on it -/

theorem handleConnectionFuel_step_some (fuel : Nat) (fs : FS) (s rest : List Nat)
    (m : Json) (hsr : serverReadMessage s = (some m, rest)) :
    handleConnectionFuel (fuel + 1) fs s =
      (if isDict m = true then
        match routeMsg fs m with
        | .error e => ([], .crashed e)
        | .ok (reply, term) =>
          let out : List Json := match reply with | some r => [r] | none => []
          if term = true then (out, SessEnd.closed)
          else
            match handleConnectionFuel fuel fs rest with
            | (outs, e) => (out ++ outs, e)
      else handleConnectionFuel fuel fs rest) := by
  rw [handleConnectionFuel, hsr]

/-! ### The claims -/

/-- C1: writing any well-formed message of the protocol schema with
`write_message` and decoding the resulting bytes with `read_message` (on
either side) yields the original message with nothing left over. -/
theorem C1_roundtrip (m : Json) (hw : wfJson m = true) :
    serverReadMessage (writeMessage m) = (some m, []) ∧
    clientReadMessage (writeMessage m) = .ok (some m, []) := by
  have h1 := serverReadMessage_write m hw []
  have h2 := clientReadMessage_write m hw []
  rw [List.append_nil] at h1 h2
  exact ⟨h1, h2⟩

/-- C1 witness: the round trip at a full request message using every
schema field shape. -/
theorem C1_roundtrip_witness :
    wfJson (Json.obj [(sc "jsonrpc", Json.str (sc "2.0")), (sc "id", Json.num 1),
      (sc "method", Json.str (sc "tools/call")),
      (sc "params", Json.obj [(sc "name", Json.str (sc "read_file")),
        (sc "arguments", Json.obj [(sc "path", Json.str (sc "notes.txt"))])])]) =
      true ∧
    (serverReadMessage (writeMessage (Json.obj [(sc "jsonrpc", Json.str (sc "2.0")),
      (sc "id", Json.num 1), (sc "method", Json.str (sc "tools/call")),
      (sc "params", Json.obj [(sc "name", Json.str (sc "read_file")),
        (sc "arguments", Json.obj [(sc "path", Json.str (sc "notes.txt"))])])])) =
      (some (Json.obj [(sc "jsonrpc", Json.str (sc "2.0")), (sc "id", Json.num 1),
        (sc "method", Json.str (sc "tools/call")),
        (sc "params", Json.obj [(sc "name", Json.str (sc "read_file")),
          (sc "arguments", Json.obj [(sc "path", Json.str (sc "notes.txt"))])])]),
       []) ∧
     clientReadMessage (writeMessage (Json.obj [(sc "jsonrpc", Json.str (sc "2.0")),
      (sc "id", Json.num 1), (sc "method", Json.str (sc "tools/call")),
      (sc "params", Json.obj [(sc "name", Json.str (sc "read_file")),
        (sc "arguments", Json.obj [(sc "path", Json.str (sc "notes.txt"))])])])) =
      .ok (some (Json.obj [(sc "jsonrpc", Json.str (sc "2.0")), (sc "id", Json.num 1),
        (sc "method", Json.str (sc "tools/call")),
        (sc "params", Json.obj [(sc "name", Json.str (sc "read_file")),
          (sc "arguments", Json.obj [(sc "path", Json.str (sc "notes.txt"))])])]),
       [])) :=
  ⟨rfl, C1_roundtrip _ rfl⟩

/-- C2: a reply the router produces for a request carrying an identifier
echoes that identifier unchanged (same value, same type) in its `id`
field, whatever the method and whether the reply is a result or an
error. -/
theorem C2_id_echo (fs : FS) (m reply : Json) (term : Bool)
    (hid : isNone (jget m (sc "id")) = false)
    (h : routeMsg fs m = .ok (some reply, term)) :
    jget reply (sc "id") = jget m (sc "id") :=
  routeMsg_reply_id fs m reply term h

/-- C2 witness: the id 5 of a `tools/list` request is echoed. -/
theorem C2_id_echo_witness :
    isNone (jget (Json.obj [(sc "method", Json.str (sc "tools/list")),
      (sc "id", Json.num 5)]) (sc "id")) = false ∧
    jget (handle_tools_list (Json.num 5)) (sc "id") =
      jget (Json.obj [(sc "method", Json.str (sc "tools/list")),
        (sc "id", Json.num 5)]) (sc "id") :=
  ⟨rfl, C2_id_echo ⟨sc "ctx", []⟩
    (Json.obj [(sc "method", Json.str (sc "tools/list")), (sc "id", Json.num 5)])
    (handle_tools_list (Json.num 5)) false rfl rfl⟩

/-- C3 (amended): when the server's decoder reports no message — which is
what a malformed header, a missing or non-numeric length field or an
undecodable body produce, exactly like end of stream — the connection loop
breaks at once and the session closes; nothing after the offending bytes
is processed. Only a successfully decoded non-dict body is skipped with
the session continuing. -/
theorem C3_parse_failure_closes (fs : FS) (fuel : Nat) (s rest : List Nat)
    (m : Json) :
    ((serverReadMessage s).1 = none →
      handleConnectionFuel (fuel + 1) fs s = ([], .closed)) ∧
    (serverReadMessage s = (some m, rest) → isDict m = false →
      handleConnectionFuel (fuel + 1) fs s = handleConnectionFuel fuel fs rest) := by
  constructor
  · intro h
    rw [handleConnectionFuel]
    rcases hsr : serverReadMessage s with ⟨o, r⟩
    rw [hsr] at h
    cases o with
    | none => rfl
    | some v => exact Option.noConfusion h
  · intro hsr hnd
    rw [handleConnectionFuel_step_some fuel fs s rest m hsr, hnd]
    rfl

/-- C3 counterexample: a malformed length header followed by a perfectly
valid shutdown request. The session closes at the bad frame with no reply,
although the same valid frame alone is answered — the offending message is
not skipped and the rest of the stream is never processed, refuting the
skip-and-continue reading. -/
theorem C3_counterexample :
    handleConnection ⟨sc "ctx", []⟩ (sc "Content-Length: abc\r\n\r\n" ++
      writeMessage (Json.obj [(sc "method", Json.str (sc "shutdown")),
        (sc "id", Json.num 3)])) = ([], .closed) ∧
    handleConnection ⟨sc "ctx", []⟩
      (writeMessage (Json.obj [(sc "method", Json.str (sc "shutdown")),
        (sc "id", Json.num 3)])) =
      ([Json.obj [(sc "jsonrpc", Json.str (sc "2.0")), (sc "id", Json.num 3),
        (sc "result", Json.obj [])]], .closed) :=
  ⟨rfl, rfl⟩

/-- C4: every reply the connection session writes satisfies the protocol
invariant of carrying exactly one of `result` and `error`. -/
theorem C4_exactly_one (fs : FS) (s : List Nat) :
    ((handleConnection fs s).1.all exactlyOneB) = true :=
  handleConnectionFuel_shape _ fs s

/-- C5: the `tools/call` dispatcher converts every tool-level failure into
an ordinary error response: code -32601 naming an unregistered tool,
-32000 for a `FileNotFoundError` raised by a tool, and -32001 for any
other tool raise; in each case the dispatch returns normally instead of
propagating a fault. -/
theorem C5_tool_errors (fs : FS) (reqId params name : Json)
    (hname : pyGet params (sc "name") = .ok name) :
    (pyEqStr name (sc "read_file") = false →
     pyEqStr name (sc "search_file") = false →
      handle_tools_call fs reqId params =
        .ok (errResp reqId (-32601)
          (sc "Method not found: tool " ++ pyStr name))) ∧
    (∀ m, toolsCallBody fs reqId name (argsOf params) = .error (.fileNotFound m) →
      handle_tools_call fs reqId params =
        .ok (errResp reqId (-32000) (sc "File not found: " ++ m))) ∧
    (∀ e, toolsCallBody fs reqId name (argsOf params) = .error e →
      (∀ m, e ≠ .fileNotFound m) →
      handle_tools_call fs reqId params =
        .ok (errResp reqId (-32001) (sc "Server error: " ++ PyExc.text e))) := by
  have hdict := isDict_of_pyGet params (sc "name") name hname
  have hargs := pyGet_isDict params (sc "arguments") hdict
  have he := handle_tools_call_eq fs reqId params name hname hargs
  refine ⟨?_, ?_, ?_⟩
  · intro h1 h2
    have hb : toolsCallBody fs reqId name (argsOf params) =
        .ok (errResp reqId (-32601)
          (sc "Method not found: tool " ++ pyStr name)) := by
      rw [toolsCallBody, if_neg (by simp [h1]), if_neg (by simp [h2])]
    rw [he, hb]
  · intro m hm
    rw [he, hm]
  · intro e he2 hne
    rw [he, he2]
    cases e with
    | fileNotFound m => exact absurd rfl (hne m)
    | valueError m => rfl
    | typeError m => rfl
    | attributeError m => rfl
    | runtimeError m => rfl
    | unicodeError m => rfl
    | jsonError m => rfl
    | osError m => rfl

/-- C5 witness: calling the unregistered tool name `frobnicate` yields the
-32601 error response naming it. -/
theorem C5_tool_errors_witness :
    handle_tools_call ⟨sc "ctx", []⟩ (Json.num 7)
        (Json.obj [(sc "name", Json.str (sc "frobnicate"))]) =
      .ok (errResp (Json.num 7) (-32601)
        (sc "Method not found: tool " ++ pyStr (Json.str (sc "frobnicate")))) :=
  (C5_tool_errors ⟨sc "ctx", []⟩ (Json.num 7)
      (Json.obj [(sc "name", Json.str (sc "frobnicate"))])
      (Json.str (sc "frobnicate")) rfl).1 rfl rfl

/-- C6: a decoded shutdown or exit request ends the session immediately
after the exchange: one empty-result reply when the request carries an
identifier, no reply otherwise, and the rest of the stream is never
processed. -/
theorem C6_shutdown_exit (fs : FS) (m : Json) (rest : List Nat) (fuel : Nat)
    (hw : wfJson m = true) (hdict : isDict m = true)
    (hm : pyEqStr (jget m (sc "method")) (sc "shutdown") = true ∨
          pyEqStr (jget m (sc "method")) (sc "exit") = true) :
    handleConnectionFuel (fuel + 1) fs (writeMessage m ++ rest) =
      ((if isNone (jget m (sc "id")) then []
        else [Json.obj [(sc "jsonrpc", Json.str (sc "2.0")),
          (sc "id", jget m (sc "id")), (sc "result", Json.obj [])]]), .closed) := by
  have hroute := routeMsg_shutdown_exit fs m
    (hm.imp (pyEqStr_eq _ _) (pyEqStr_eq _ _))
  rw [handleConnectionFuel_step_some fuel fs (writeMessage m ++ rest) rest m
    (serverReadMessage_write m hw rest), hdict, hroute]
  cases hid : isNone (jget m (sc "id")) <;> simp only [hid] <;> rfl

/-- C6 witness: shutdown with id 3 followed by another frame — the reply
is the empty result with id 3 and the later frame is dead. -/
theorem C6_shutdown_exit_witness :
    handleConnectionFuel 3 ⟨sc "ctx", []⟩
      (writeMessage (Json.obj [(sc "method", Json.str (sc "shutdown")),
        (sc "id", Json.num 3)]) ++
       writeMessage (Json.obj [(sc "method", Json.str (sc "tools/list")),
        (sc "id", Json.num 4)])) =
      ((if isNone (jget (Json.obj [(sc "method", Json.str (sc "shutdown")),
          (sc "id", Json.num 3)]) (sc "id")) then []
        else [Json.obj [(sc "jsonrpc", Json.str (sc "2.0")),
          (sc "id", jget (Json.obj [(sc "method", Json.str (sc "shutdown")),
            (sc "id", Json.num 3)]) (sc "id")), (sc "result", Json.obj [])]]),
       .closed) :=
  C6_shutdown_exit ⟨sc "ctx", []⟩
    (Json.obj [(sc "method", Json.str (sc "shutdown")), (sc "id", Json.num 3)])
    (writeMessage (Json.obj [(sc "method", Json.str (sc "tools/list")),
      (sc "id", Json.num 4)])) 2 rfl rfl (Or.inl rfl)

/-- C7: `MCPClient.call` assigns the incremented id, sends the encoded
request carrying it, returns the first decoded incoming message whose id
equals it while discarding the non-matching frames before it, and reports
the transport-terminated `RuntimeError` when the stream ends first. -/
theorem C7_call_correlation (idc : Int) (method : List Nat) (params : Json)
    (pre : List Json) (m : Json) (tail : List Nat)
    (hpre : ∀ x ∈ pre, wfJson x = true ∧ isDict x = true ∧
      pyEqInt (jget x (sc "id")) (idc + 1) = false)
    (hm : wfJson m = true) (hdict : isDict m = true)
    (hid : pyEqInt (jget m (sc "id")) (idc + 1) = true) :
    (clientCall idc method params (frames pre ++ (writeMessage m ++ tail))).newId =
      idc + 1 ∧
    (clientCall idc method params (frames pre ++ (writeMessage m ++ tail))).sent =
      writeMessage (Json.obj [(sc "jsonrpc", Json.str (sc "2.0")),
        (sc "id", Json.num (idc + 1)), (sc "method", Json.str method),
        (sc "params", params)]) ∧
    (clientCall idc method params (frames pre ++ (writeMessage m ++ tail))).result =
      some (.ok m) ∧
    (clientCall idc method params (frames pre)).result =
      some (.error (.runtimeError
        (sc "Server terminated or sent invalid message"))) := by
  refine ⟨rfl, rfl, ?_, ?_⟩
  · show callLoop (idc + 1)
        ((frames pre ++ (writeMessage m ++ tail)).length + 1)
        (frames pre ++ (writeMessage m ++ tail)) = some (.ok m)
    rw [callLoop_pre (idc + 1) pre hpre
      ((frames pre ++ (writeMessage m ++ tail)).length + 1)
      (writeMessage m ++ tail)
      (by simp only [List.length_append]; omega)]
    obtain ⟨k, hk⟩ : ∃ k,
        (frames pre ++ (writeMessage m ++ tail)).length + 1 - pre.length =
          k + 1 := by
      have h1 := frames_length_le pre
      have h2 : (frames pre).length ≤
          (frames pre ++ (writeMessage m ++ tail)).length := by
        simp only [List.length_append]
        omega
      exact ⟨(frames pre ++ (writeMessage m ++ tail)).length - pre.length,
        by omega⟩
    rw [hk, callLoop, clientReadMessage_write m hm tail]
    simp [pyGet_isDict m _ hdict, hid]
  · show callLoop (idc + 1) ((frames pre).length + 1) (frames pre) =
      some (.error (.runtimeError
        (sc "Server terminated or sent invalid message")))
    have h0 := callLoop_pre (idc + 1) pre hpre ((frames pre).length + 1) []
      (by rw [List.length_nil]; omega)
    rw [List.append_nil] at h0
    rw [h0]
    obtain ⟨k, hk⟩ : ∃ k, (frames pre).length + 1 - pre.length = k + 1 := by
      have h1 := frames_length_le pre
      exact ⟨(frames pre).length - pre.length, by omega⟩
    rw [hk, callLoop]
    rfl

/-- C7 witness: with id counter 0 the call takes id 1; a frame carrying id
99 is discarded, the frame carrying id 1 is returned, and the truncated
stream raises the transport-terminated error. -/
theorem C7_call_correlation_witness :
    (clientCall 0 (sc "tools/list") Json.null
        (frames [Json.obj [(sc "id", Json.num 99)]] ++
          (writeMessage (Json.obj [(sc "id", Json.num 1),
            (sc "result", Json.obj [])]) ++ []))).result =
      some (.ok (Json.obj [(sc "id", Json.num 1), (sc "result", Json.obj [])])) ∧
    (clientCall 0 (sc "tools/list") Json.null
        (frames [Json.obj [(sc "id", Json.num 99)]])).result =
      some (.error (.runtimeError
        (sc "Server terminated or sent invalid message"))) :=
  ⟨(C7_call_correlation 0 (sc "tools/list") Json.null
      [Json.obj [(sc "id", Json.num 99)]]
      (Json.obj [(sc "id", Json.num 1), (sc "result", Json.obj [])]) []
      (fun x hx => by
        obtain rfl := List.mem_singleton.mp hx
        exact ⟨rfl, rfl, rfl⟩)
      rfl rfl rfl).2.2.1,
   (C7_call_correlation 0 (sc "tools/list") Json.null
      [Json.obj [(sc "id", Json.num 99)]]
      (Json.obj [(sc "id", Json.num 1), (sc "result", Json.obj [])]) []
      (fun x hx => by
        obtain rfl := List.mem_singleton.mp hx
        exact ⟨rfl, rfl, rfl⟩)
      rfl rfl rfl).2.2.2⟩

/-- C8 (amended): a message without an identifier goes unanswered only on
the shutdown/exit and unknown-method branches, whose replies the source
guards with `req_id is not None`; the `initialize`, `tools/list` and
`tools/call` branches reply even then, carrying a null id. -/
theorem C8_notifications (fs : FS) (m : Json)
    (hid : isNone (jget m (sc "id")) = true) :
    (pyEqStr (jget m (sc "method")) (sc "initialize") = false →
     pyEqStr (jget m (sc "method")) (sc "tools/list") = false →
     pyEqStr (jget m (sc "method")) (sc "tools/call") = false →
      ∃ term, routeMsg fs m = .ok (none, term)) ∧
    (pyEqStr (jget m (sc "method")) (sc "initialize") = true →
      routeMsg fs m = .ok (some ( handle_initialize Json.null), false)) := by
  constructor
  · intro h1 h2 h3
    by_cases hse : (pyEqStr (jget m (sc "method")) (sc "shutdown") ||
        pyEqStr (jget m (sc "method")) (sc "exit")) = true
    · refine ⟨true, ?_⟩
      rw [routeMsg]
      simp only [h1, h2, h3, hse, hid]
      rfl
    · refine ⟨false, ?_⟩
      simp only [Bool.not_eq_true] at hse
      rw [routeMsg]
      simp only [h1, h2, h3, hse, hid]
      rfl
  · intro hi
    rw [routeMsg]
    simp only [hi, isNone_null _ hid]
    rfl

/-- C8 witness: a shutdown notification without an id receives no reply. -/
theorem C8_notifications_witness :
    ∃ term, routeMsg ⟨sc "ctx", []⟩
      (Json.obj [(sc "method", Json.str (sc "shutdown"))]) = .ok (none, term) :=
  (C8_notifications ⟨sc "ctx", []⟩
    (Json.obj [(sc "method", Json.str (sc "shutdown"))]) rfl).1 rfl rfl rfl

/-- C8 counterexample: a `tools/list` message with no id is a notification,
yet the router produces a reply for it (with a null id), refuting the
reading that id-less messages are always handled silently. -/
theorem C8_counterexample :
    isNone (jget (Json.obj [(sc "method", Json.str (sc "tools/list"))])
      (sc "id")) = true ∧
    routeMsg ⟨sc "ctx", []⟩ (Json.obj [(sc "method", Json.str (sc "tools/list"))]) =
      .ok (some (handle_tools_list Json.null), false) :=
  ⟨rfl, rfl⟩

/-- C9 (amended): the server-side decoder returns "no message" on every
failure — end of stream, absent length header, non-numeric length header —
and the caller-side decoder does so for end of stream and an absent
header, but a non-numeric `Content-Length` value makes the caller raise
`ValueError`: its `int(...)` is unguarded. -/
theorem C9_decoder_raises :
    serverReadMessage [] = (none, []) ∧
    serverReadMessage (sc "\r\n\r\n") = (none, [13, 10]) ∧
    serverReadMessage (sc "Content-Length: abc\r\n\r\n") = (none, []) ∧
    clientReadMessage [] = .ok (none, []) ∧
    clientReadMessage (sc "\r\n\r\n") = .ok (none, [13, 10]) ∧
    clientReadMessage (sc "Content-Length: abc\r\n\r\n") =
      .error (.valueError (sc "invalid literal for int with base 10")) :=
  ⟨rfl, rfl, rfl, rfl, rfl, rfl⟩

/-- C9 counterexample: a non-numeric length header makes the caller-side
decoder raise `ValueError` instead of returning "no message", refuting
"never raises" for the caller side. -/
theorem C9_counterexample :
    clientReadMessage (sc "Content-Length: five\r\n\r\n") =
      .error (.valueError (sc "invalid literal for int with base 10")) := rfl

/-- C10: a frame whose `Content-Length` is 0 decodes as "no message" on
both sides — the same outcome as end of stream — whatever bytes follow, so
it can never be decoded as a message, it breaks the server's connection
loop, and it ends the caller's correlation loop with the
transport-terminated error. -/
theorem C10_zero_length (fs : FS) (reqId : Int) (fuel : Nat) (rest : List Nat) :
    serverReadMessage (sc "Content-Length: 0" ++ (13 :: 10 :: 13 :: 10 :: rest)) =
      (none, rest) ∧
    clientReadMessage (sc "Content-Length: 0" ++ (13 :: 10 :: 13 :: 10 :: rest)) =
      .ok (none, rest) ∧
    handleConnectionFuel (fuel + 1) fs
      (sc "Content-Length: 0" ++ (13 :: 10 :: 13 :: 10 :: rest)) =
      ([], .closed) ∧
    callLoop reqId (fuel + 1)
      (sc "Content-Length: 0" ++ (13 :: 10 :: 13 :: 10 :: rest)) =
      some (.error (.runtimeError
        (sc "Server terminated or sent invalid message"))) := by
  have hs : sc "Content-Length: 0" = sc "Content-Length: " ++ natDec 0 := rfl
  have h1 : serverReadMessage
      (sc "Content-Length: 0" ++ (13 :: 10 :: 13 :: 10 :: rest)) = (none, rest) := by
    rw [hs, serverReadMessage, readHeadersSrv_frame _ (by
      simp only [List.length_append, List.length_cons]
      omega) [] 0 rest]
    rfl
  have h2 : clientReadMessage
      (sc "Content-Length: 0" ++ (13 :: 10 :: 13 :: 10 :: rest)) =
      .ok (none, rest) := by
    rw [hs, clientReadMessage, readHeadersCli_frame _ (by
      simp only [List.length_append, List.length_cons]
      omega) [] 0 rest]
    rfl
  refine ⟨h1, h2, ?_, ?_⟩
  · rw [handleConnectionFuel, h1]
  · rw [callLoop, h2]
